import Mathlib

/-!
# Self-update engine of `opamp-package-mgm`: shallow embedding

The Go package keeps a running executable up to date: `Updater.BackgroundRun`
receives candidates from a trigger, `Updater.Update` fetches a delta or the full
binary, checks its SHA-256 and `fromStream` swaps the file on disk.

The embedding is state passing.  The file system is a map from paths to
nodes, every call of the operating system that the Go code makes is a
function on that map, and the ways in which such a call can fail for reasons
outside the program (permissions, full disk, a platform that refuses a rename)
are an explicit record of switches, `Faults`.  Calls into libraries that are not
part of the repository (`crypto/sha256`, `compress/gzip`, `binarydist`, the
network behind the `Requester`) are fields of `Env`.

The reference triggers of `trigger.go` are embedded the same way over the
content of their `cktime` file, with the clock, the random generator and the
manifest they read as fields of `TriggerEnv`; `HTTPRequester.SetHeader` is a
function on the stored header map.
-/

namespace OpampPackageMgm

/-! ## Data model -/

/-- A byte slice, `[]byte`. -/
abbrev Bytes := List Nat

/-- Go `error` values.  `ErrHashMismatch` is the package level sentinel of
`common.go`, compared by identity in `Update`; every other error is identified
by its text. -/
inductive GoError where
  | ErrHashMismatch
  | msg (text : String)
deriving DecidableEq, Repr

deriving instance DecidableEq for Except

/-- The text of an error, `err.Error()`. -/
def GoError.Error : GoError → String
  | .ErrHashMismatch => "new file hash mismatch after patch"
  | .msg t => t

/-- A path as `filepath.Dir` and `filepath.Base` split it: the directory and the
last element. -/
structure Path where
  dir : String
  base : String
deriving DecidableEq, Repr

/-- `filepath.Dir`. -/
def filepath_Dir (p : Path) : String := p.dir

/-- `filepath.Base`. -/
def filepath_Base (p : Path) : String := p.base

/-- `filepath.Join(dir, name)` for a single element `name`. -/
def filepath_Join (dir name : String) : Path := ⟨dir, name⟩

/-- What a directory entry is: a regular file with its bytes, or a symbolic
link with its (absolute) target. -/
inductive Node where
  | file (content : Bytes)
  | symlink (target : Path)
deriving DecidableEq, Repr

/-- The file system: what is found at each path. -/
abbrev FS := Path → Option Node

/-- Set the entry at path `p`. -/
def FS.set (fs : FS) (p : Path) (n : Option Node) : FS :=
  fun q => if q = p then n else fs q

/-- `updaterinfo.go`: `UpdatePackageInfo`. -/
structure UpdatePackageInfo where
  Version : String
  DownloadUrl : String
  ContentHash : Bytes
  Signature : Bytes
  CurrentVersion : String
  IsPatch : Bool
deriving DecidableEq, Repr

/-- An `io.ReadCloser` as seen by its reader: the bytes it delivers and the
error, if any, with which reading stops. -/
structure Stream where
  data : Bytes
  err : Option GoError
deriving DecidableEq, Repr

/-- `requester.go`: the `Fetch` method of a `Requester`.  The result is the pair
`(io.ReadCloser, error)`; the reader may be nil. -/
abbrev Requester := String → Except GoError (Option Stream)

/-- The two user callbacks of `Updater`. -/
inductive Hook where
  | OnSuccessfulUpdate
  | OnFailedUpdate
deriving DecidableEq, Repr

/-- `updater.go`: `Updater`.  A callback field records whether the function is
set (non-nil); a call of it is recorded in `World.hooks`.  `ctx`, `Trigger` and
`Logger` are handled by `BackgroundRun`. -/
structure Updater where
  CurrentVersion : String
  Requester : Option Requester
  Dir : String
  Info : UpdatePackageInfo
  OnSuccessfulUpdate : Bool
  OnFailedUpdate : Bool
  IsGzipped : Bool

/-- A SHA-256 digest, `[sha256.Size]byte`. -/
abbrev Digest := { d : Bytes // d.length = 32 }

/-- Everything outside the repository that the engine calls. -/
structure Env where
  /-- `os.Executable()`. -/
  Executable : Except GoError Path
  /-- `sha256.New(); h.Write(bin); h.Sum(nil)`. -/
  sha256 : Bytes → Digest
  /-- `binarydist.Patch(old, &buf, r)`: the bytes written to `buf` and the error. -/
  Patch : Bytes → Stream → Bytes × Option GoError
  /-- `gzip.NewReader(r)`: the decompressing reader, or an error. -/
  gzipNewReader : Stream → Except GoError Stream
  /-- `defaultHTTPRequester.Fetch`. -/
  defaultFetch : String → Except GoError Stream

/-- Failures of operating system calls that the program does not control.  A
switch that is `true` makes the call at that place return an error and leave
the file system as it was. -/
structure Faults where
  /-- `os.MkdirAll` in `BackgroundRun`. -/
  mkdirAll : Bool := false
  /-- `os.OpenFile(newPath, ...)` in `canUpdate`. -/
  preflightOpen : Bool := false
  /-- `os.Remove(newPath)` in `canUpdate`. -/
  preflightRemove : Bool := false
  /-- `filepath.EvalSymlinks(path)` in `Update`. -/
  evalSymlinks : Bool := false
  /-- `os.Open(path)` in `Update`. -/
  openOld : Bool := false
  /-- `os.OpenFile(newPath, ...)` in `fromStream`. -/
  openNew : Bool := false
  /-- `io.Copy(fp, ...)` in `fromStream`: `some n` stops the copy with an error
  after `n` bytes. -/
  copy : Option Nat := none
  /-- `os.Remove(oldPath)` before the swap. -/
  removeStale : Bool := false
  /-- `os.Rename(updatePath, oldPath)`. -/
  renameToOld : Bool := false
  /-- `os.Rename(newPath, updatePath)`. -/
  renameToLive : Bool := false
  /-- `os.Rename(oldPath, updatePath)`, the recovery. -/
  renameBack : Bool := false
  /-- `os.Remove(oldPath)` after the swap. -/
  removeOld : Bool := false
  /-- `hideFile(oldPath)`. -/
  hide : Bool := false
deriving DecidableEq, Repr

/-- The mutable world of one run: the file system, the URLs passed to `Fetch`
so far (oldest first) and the callbacks invoked so far (oldest first). -/
structure World where
  fs : FS
  fetched : List String
  hooks : List Hook

/-! ## Operating system calls -/

/-- Follow symbolic links from `p`, at most `fuel` of them: the first path that
is not a link (a file, or nothing).  `none` is "too many links". -/
def followLinks (fs : FS) : Nat → Path → Option Path
  | 0, _ => none
  | fuel + 1, p =>
    match fs p with
    | some (Node.symlink t) => followLinks fs fuel t
    | _ => some p

/-- The number of links `filepath.EvalSymlinks` follows before it gives up. -/
def evalSymlinksLimit : Nat := 255

/-- The number of links the kernel follows when it opens a path. -/
def openLinkLimit : Nat := 40

/-- `filepath.EvalSymlinks(path)`: the path with all links resolved, an error
when the chain is too long or ends at nothing. -/
def EvalSymlinks (flt : Faults) (fs : FS) (p : Path) : Except GoError Path :=
  if flt.evalSymlinks then .error (.msg "EvalSymlinks") else
  match followLinks fs (evalSymlinksLimit + 1) p with
  | none => .error (.msg "EvalSymlinks: too many links")
  | some q =>
    match fs q with
    | some _ => .ok q
    | none => .error (.msg "lstat: no such file or directory")

/-- `os.Open(path)` followed by reading the handle: the bytes of the file that
`path` leads to. -/
def os_Open (fault : Bool) (fs : FS) (p : Path) : Except GoError Bytes :=
  if fault then .error (.msg "open") else
  match followLinks fs (openLinkLimit + 1) p with
  | none => .error (.msg "open: too many levels of symbolic links")
  | some q =>
    match fs q with
    | some (Node.file b) => .ok b
    | _ => .error (.msg "open: no such file or directory")

/-- `os.OpenFile(p, os.O_CREATE|os.O_WRONLY|os.O_TRUNC, 0755)`: the file that `p`
leads to is created or emptied.  The result is the path of the file the handle
writes to, and the file system after the call. -/
def os_OpenFile (fault : Bool) (fs : FS) (p : Path) : Except GoError (Path × FS) :=
  if fault then .error (.msg "open") else
  match followLinks fs (openLinkLimit + 1) p with
  | none => .error (.msg "open: too many levels of symbolic links")
  | some q => .ok (q, fs.set q (some (Node.file [])))

/-- `os.Remove(p)`: removes the entry at `p` itself (a link is not followed). -/
def os_Remove (fault : Bool) (fs : FS) (p : Path) : Option GoError × FS :=
  if fault then (some (.msg "remove"), fs) else
  match fs p with
  | none => (some (.msg "remove: no such file or directory"), fs)
  | some _ => (none, fs.set p none)

/-- `os.Rename(src, dst)`: the entry at `src` (a link is not followed) moves to
`dst` in one step, replacing what was there. -/
def os_Rename (fault : Bool) (fs : FS) (src dst : Path) : Option GoError × FS :=
  if fault then (some (.msg "rename"), fs) else
  match fs src with
  | none => (some (.msg "rename: no such file or directory"), fs)
  | some n => (none, if src = dst then fs else (fs.set dst (some n)).set src none)

/-- Modelled from the spec: `hideFile` is defined in a platform file that is not
among the sources.  Spec 4.5 step 9: the file is hidden by a platform attribute,
which changes neither its name nor its bytes, and a failure is not an error of
the update. -/
def hideFile (fault : Bool) (fs : FS) (_p : Path) : Option GoError × FS :=
  if fault then (some (.msg "hide"), fs) else (none, fs)

/-- `io.Copy(fp, bytes.NewReader(newBytes))` onto the freshly opened file at
`target`: all bytes, or the first `n` and an error. -/
def io_Copy_toFile (copyFault : Option Nat) (fs : FS) (target : Path) (newBytes : Bytes) :
    Option GoError × FS :=
  match copyFault with
  | none => (none, fs.set target (some (Node.file newBytes)))
  | some n => (some (.msg "short write"), fs.set target (some (Node.file (newBytes.take n))))

/-- `io.Copy(buf, r)` into a `bytes.Buffer`: the bytes of the stream, or its
read error. -/
def io_Copy_toBuffer (r : Stream) : Except GoError Bytes :=
  match r.err with
  | some e => .error e
  | none => .ok r.data

/-! ## `utils.go` -/

/-- `verifySha`: `bytes.Equal(h.Sum(nil), sha)`. -/
def verifySha (env : Env) (bin : Bytes) (sha : Bytes) : Bool :=
  decide ((env.sha256 bin).val = sha)

/-! ## `updater.go` -/

/-- The path of the staged file, `filepath.Join(dir, fmt.Sprintf(".%s.new", name))`. -/
def newPathOf (path : Path) : Path :=
  filepath_Join (filepath_Dir path) ("." ++ filepath_Base path ++ ".new")

/-- The path of the displaced file, `filepath.Join(dir, fmt.Sprintf(".%s.old", name))`. -/
def oldPathOf (path : Path) : Path :=
  filepath_Join (filepath_Dir path) ("." ++ filepath_Base path ++ ".old")

/-- `Updater.fetch`: the call of the requester is recorded in `fetched`. -/
def Updater.fetch (env : Env) (u : Updater) (url : String) (w : World) :
    Except GoError Stream × World :=
  let w1 : World := { w with fetched := w.fetched ++ [url] }
  match u.Requester with
  | none => (env.defaultFetch url, w1)
  | some req =>
    match req url with
    | .error e => (.error e, w1)
    | .ok none => (.error (.msg "Fetch was expected to return non-nil ReadCloser"), w1)
    | .ok (some rc) => (.ok rc, w1)

/-- `Updater.fetchBin`. -/
def Updater.fetchBin (env : Env) (u : Updater) (w : World) : Except GoError Bytes × World :=
  match u.fetch env u.Info.DownloadUrl w with
  | (.error e, w1) => (.error e, w1)
  | (.ok r, w1) =>
    if u.IsGzipped then
      match env.gzipNewReader r with
      | .error e => (.error e, w1)
      | .ok gz => (io_Copy_toBuffer gz, w1)
    else
      (io_Copy_toBuffer r, w1)

/-- `Updater.fetchAndApplyPatch`: returns `buf.Bytes(), err`. -/
def Updater.fetchAndApplyPatch (env : Env) (u : Updater) (old : Bytes) (w : World) :
    (Bytes × Option GoError) × World :=
  match u.fetch env (u.Info.DownloadUrl ++ ".patch") w with
  | (.error e, w1) => (([], some e), w1)
  | (.ok r, w1) => (env.Patch old r, w1)

/-- `Updater.fetchAndVerifyPatch`. -/
def Updater.fetchAndVerifyPatch (env : Env) (u : Updater) (old : Bytes) (w : World) :
    Except GoError Bytes × World :=
  match u.fetchAndApplyPatch env old w with
  | ((_, some e), w1) => (.error e, w1)
  | ((bin, none), w1) =>
    if !verifySha env bin u.Info.ContentHash then (.error .ErrHashMismatch, w1)
    else (.ok bin, w1)

/-- `Updater.fetchAndVerifyFullBin`. -/
def Updater.fetchAndVerifyFullBin (env : Env) (u : Updater) (w : World) :
    Except GoError Bytes × World :=
  match u.fetchBin env w with
  | (.error e, w1) => (.error e, w1)
  | (.ok bin, w1) =>
    if !verifySha env bin u.Info.ContentHash then (.error .ErrHashMismatch, w1)
    else (.ok bin, w1)

/-- What `fromStream` returns, with the file system it leaves and the file
systems it went through: `trace` lists the state after each call that can
change a file, in order, the state at entry first. -/
structure SwapResult where
  err : Option GoError
  errRecover : Option GoError
  fs : FS
  trace : List FS

/-- Lines 178 to 209 of `fromStream`: the swap, from the removal of a stale
`.old` on.  `trace` is the list of states before this part, newest last. -/
def fromStream_swap (flt : Faults) (updatePath newPath : Path) (fs : FS) (trace : List FS) :
    SwapResult :=
  let oldPath := oldPathOf updatePath
  -- _ = os.Remove(oldPath)
  let fs1 := (os_Remove flt.removeStale fs oldPath).2
  -- err = os.Rename(updatePath, oldPath)
  match os_Rename flt.renameToOld fs1 updatePath oldPath with
  | (some e, fs2) => ⟨some e, none, fs2, trace ++ [fs1, fs2]⟩
  | (none, fs2) =>
    -- err = os.Rename(newPath, updatePath)
    match os_Rename flt.renameToLive fs2 newPath updatePath with
    | (some e, fs3) =>
      -- errRecover = os.Rename(oldPath, updatePath)
      let r := os_Rename flt.renameBack fs3 oldPath updatePath
      ⟨some e, r.1, r.2, trace ++ [fs1, fs2, fs3, r.2]⟩
    | (none, fs3) =>
      -- errRemove := os.Remove(oldPath)
      match os_Remove flt.removeOld fs3 oldPath with
      | (some _, fs4) =>
        let fs5 := (hideFile flt.hide fs4 oldPath).2
        ⟨none, none, fs5, trace ++ [fs1, fs2, fs3, fs4, fs5]⟩
      | (none, fs4) => ⟨none, none, fs4, trace ++ [fs1, fs2, fs3, fs4]⟩

/-- `fromStream`.  `ioutil.ReadAll` of a `bytes.Buffer` cannot fail, so
`newBytes` is the argument itself.  The error of `io.Copy` is assigned to `err`
and then overwritten by the result of the first rename, as in the source. -/
def fromStream (env : Env) (flt : Faults) (newBytes : Bytes) (fs : FS) : SwapResult :=
  match env.Executable with
  | .error e => ⟨some e, none, fs, [fs]⟩
  | .ok updatePath =>
    let newPath := newPathOf updatePath
    match os_OpenFile flt.openNew fs newPath with
    | .error e => ⟨some e, none, fs, [fs]⟩
    | .ok (fp, fs1) =>
      -- _, err = io.Copy(fp, bytes.NewReader(newBytes))
      let fs2 := (io_Copy_toFile flt.copy fs1 fp newBytes).2
      fromStream_swap flt updatePath newPath fs2 [fs, fs1, fs2]

/-- `canUpdate`. -/
def canUpdate (env : Env) (flt : Faults) (fs : FS) : Option GoError × FS :=
  match env.Executable with
  | .error e => (some e, fs)
  | .ok path =>
    let newPath := newPathOf path
    match os_OpenFile flt.preflightOpen fs newPath with
    | .error e => (some e, fs)
    | .ok (_, fs1) =>
      -- _ = os.Remove(newPath)
      (none, (os_Remove flt.preflightRemove fs1 newPath).2)

/-- The tail of `Update` from line 129: install `bin` and report. -/
def Updater.install (env : Env) (flt : Faults) (u : Updater) (bin : Bytes) (w : World) :
    Option GoError × World :=
  let r := fromStream env flt bin w.fs
  let w1 : World := { w with fs := r.fs }
  match r.errRecover with
  | some er =>
    (some (.msg ("update and recovery errors: " ++
      (match r.err with | some e => e.Error | none => "%!q(<nil>)") ++ " " ++ er.Error)), w1)
  | none =>
    match r.err with
    | some e => (some e, w1)
    | none =>
      if u.OnSuccessfulUpdate then (none, { w1 with hooks := w1.hooks ++ [Hook.OnSuccessfulUpdate] })
      else (none, w1)

/-- `Updater.Update`. -/
def Updater.Update (env : Env) (flt : Faults) (u : Updater) (w : World) :
    Option GoError × World :=
  match env.Executable with
  | .error e => (some e, w)
  | .ok path0 =>
    let path := match EvalSymlinks flt w.fs path0 with
      | .ok resolvedPath => resolvedPath
      | .error _ => path0
    -- we are on the latest version, nothing to do
    if u.Info.Version = u.CurrentVersion then (none, w) else
    match os_Open flt.openOld w.fs path with
    | .error e => (some e, w)
    | .ok old =>
      match u.fetchAndVerifyPatch env old w with
      | (.ok bin, w1) => u.install env flt bin w1
      | (.error _, w1) =>
        -- if patch failed grab the full new bin
        match u.fetchAndVerifyFullBin env w1 with
        | (.error e, w2) => (some e, w2)
        | (.ok bin, w2) => u.install env flt bin w2

/-- The old binary as `Update` opens it: lines 92 to 99 and 106, the path of the
executable with links resolved when that works, opened and read. -/
def openOldBinary (env : Env) (flt : Faults) (fs : FS) : Except GoError Bytes :=
  match env.Executable with
  | .error e => .error e
  | .ok path0 =>
    os_Open flt.openOld fs
      (match EvalSymlinks flt fs path0 with
        | .ok resolvedPath => resolvedPath
        | .error _ => path0)

/-- What the `select` of `BackgroundRun` receives: a candidate from the trigger
channel, together with the operating system failures that occur while it is
handled, or the cancellation of the context. -/
inductive Event where
  | candidate (info : UpdatePackageInfo) (flt : Faults)
  | done

/-- The loop of `BackgroundRun` over the events it receives, in order.
`some r` is the value the function returns; `none` means that the events are
used up and the loop is blocked in `select`, awaiting the next one. -/
def Updater.loop (env : Env) (u : Updater) : List Event → World →
    Option (Option GoError) × Updater × World
  | [], w => (none, u, w)
  | Event.done :: _, w => (some none, u, w)
  | Event.candidate info flt :: rest, w =>
    let u1 : Updater := { u with Info := info }
    match canUpdate env flt w.fs with
    | (some e, fs1) => (some (some e), u1, { w with fs := fs1 })
    | (none, fs1) =>
      match u1.Update env flt { w with fs := fs1 } with
      | (some e, w2) => (some (some e), u1, w2)
      | (none, w2) => Updater.loop env u1 rest w2

/-- `Updater.BackgroundRun`.  `hasTrigger` says whether `u.Trigger` is set; a nil
`Requester` is replaced by the default one (which `fetch` does as well).  The
state directory that `os.MkdirAll` creates is a directory, not a file, and does
not appear in `FS`. -/
def Updater.BackgroundRun (env : Env) (startFlt : Faults) (hasTrigger : Bool) (u : Updater)
    (events : List Event) (w : World) : Option (Option GoError) × Updater × World :=
  if startFlt.mkdirAll then (some (some (.msg "mkdir")), u, w) else
  if !hasTrigger then (some (some (.msg "trigger is nil")), u, w) else
  u.loop env events w

/-! ## A concrete environment

The theorems below hold for every `Env`.  To evaluate the engine on concrete
inputs the external functions need values: SHA-256 is the real function
(FIPS 180-4); the delta format and the compression are small formats of the
same shape as the real ones, enough to drive every branch of the engine. -/

namespace sha256

/-- The round constants. -/
def K : List Nat := [
  0x428a2f98, 0x71374491, 0xb5c0fbcf, 0xe9b5dba5, 0x3956c25b, 0x59f111f1, 0x923f82a4, 0xab1c5ed5,
  0xd807aa98, 0x12835b01, 0x243185be, 0x550c7dc3, 0x72be5d74, 0x80deb1fe, 0x9bdc06a7, 0xc19bf174,
  0xe49b69c1, 0xefbe4786, 0x0fc19dc6, 0x240ca1cc, 0x2de92c6f, 0x4a7484aa, 0x5cb0a9dc, 0x76f988da,
  0x983e5152, 0xa831c66d, 0xb00327c8, 0xbf597fc7, 0xc6e00bf3, 0xd5a79147, 0x06ca6351, 0x14292967,
  0x27b70a85, 0x2e1b2138, 0x4d2c6dfc, 0x53380d13, 0x650a7354, 0x766a0abb, 0x81c2c92e, 0x92722c85,
  0xa2bfe8a1, 0xa81a664b, 0xc24b8b70, 0xc76c51a3, 0xd192e819, 0xd6990624, 0xf40e3585, 0x106aa070,
  0x19a4c116, 0x1e376c08, 0x2748774c, 0x34b0bcb5, 0x391c0cb3, 0x4ed8aa4a, 0x5b9cca4f, 0x682e6ff3,
  0x748f82ee, 0x78a5636f, 0x84c87814, 0x8cc70208, 0x90befffa, 0xa4506ceb, 0xbef9a3f7, 0xc67178f2]

/-- The initial hash value. -/
def H0 : List Nat :=
  [0x6a09e667, 0xbb67ae85, 0x3c6ef372, 0xa54ff53a, 0x510e527f, 0x9b05688c, 0x1f83d9ab, 0x5be0cd19]

/-- Words are 32 bits wide. -/
def wordMod : Nat := 4294967296

/-- Rotate a 32 bit word right by `n`. -/
def rotr (x n : Nat) : Nat := ((x >>> n) ||| (x <<< (32 - n))) % wordMod

/-- The `k` bytes of `n`, most significant first. -/
def bigEndian (n k : Nat) : Bytes :=
  (List.range k).map (fun i => (n >>> (8 * (k - 1 - i))) % 256)

/-- The message, the bit 1, zeros, and the length in bits as 8 bytes. -/
def pad (m : Bytes) : Bytes :=
  m ++ [0x80] ++ List.replicate ((119 - m.length % 64) % 64) 0 ++ bigEndian (8 * m.length) 8

/-- The word that big-endian bytes spell. -/
def word (b : Bytes) : Nat := b.foldl (fun a x => a * 256 + x % 256) 0

/-- Cut `b` into `n` pieces of `k` bytes. -/
def chunks (k : Nat) : Nat → Bytes → List Bytes
  | 0, _ => []
  | n + 1, b => b.take k :: chunks k n (b.drop k)

/-- Extend the 16 words of a block by `n` more words of the message schedule. -/
def schedule (ws : List Nat) : Nat → List Nat
  | 0 => ws
  | n + 1 =>
    let w := schedule ws n
    let i := w.length
    let a := w.getD (i - 15) 0
    let b := w.getD (i - 2) 0
    let s0 := rotr a 7 ^^^ rotr a 18 ^^^ (a >>> 3)
    let s1 := rotr b 17 ^^^ rotr b 19 ^^^ (b >>> 10)
    w ++ [(w.getD (i - 16) 0 + s0 + w.getD (i - 7) 0 + s1) % wordMod]

/-- One round of the compression function, on the eight working variables. -/
def round (s : List Nat) (kw : Nat × Nat) : List Nat :=
  match s with
  | [a, b, c, d, e, f, g, h] =>
    let S1 := rotr e 6 ^^^ rotr e 11 ^^^ rotr e 25
    let ch := (e &&& f) ^^^ ((wordMod - 1 - e) &&& g)
    let t1 := (h + S1 + ch + kw.1 + kw.2) % wordMod
    let S0 := rotr a 2 ^^^ rotr a 13 ^^^ rotr a 22
    let maj := (a &&& b) ^^^ (a &&& c) ^^^ (b &&& c)
    let t2 := (S0 + maj) % wordMod
    [(t1 + t2) % wordMod, a, b, c, (d + t1) % wordMod, e, f, g]
  | _ => s

/-- The compression function on one block of 64 bytes. -/
def compress (h : List Nat) (block : Bytes) : List Nat :=
  let ws := schedule ((chunks 4 16 block).map word) 48
  let s := (K.zip ws).foldl round h
  List.zipWith (fun x y => (x + y) % wordMod) h s

/-- SHA-256 of a message. -/
def Sum256 (m : Bytes) : Bytes :=
  let p := pad m
  ((chunks 64 (p.length / 64) p).foldl compress H0).flatMap (fun x => bigEndian x 4)

/-- The digest as a value of type `Digest`.  `Sum256` has 32 bytes; cutting to
32 bytes changes nothing and gives the length by construction. -/
def digest (m : Bytes) : Digest :=
  ⟨(Sum256 m ++ List.replicate 32 0).take 32, by simp⟩

end sha256

/-- A delta format for the examples: the first byte says how many bytes of the
old file to keep, the rest is appended.  An empty delta or a read error of the
stream is an error. -/
def demoPatch (old : Bytes) (r : Stream) : Bytes × Option GoError :=
  match r.err, r.data with
  | some e, _ => ([], some e)
  | none, [] => ([], some (.msg "corrupt patch"))
  | none, k :: rest => (old.take k ++ rest, none)

/-- A compression format for the examples: the gzip magic bytes `1f 8b`
followed by the stored bytes. -/
def demoGzipNewReader (r : Stream) : Except GoError Stream :=
  match r.data with
  | 0x1f :: 0x8b :: rest => .ok ⟨rest, r.err⟩
  | _ => .error (.msg "gzip: invalid header")

/-- The path of the running executable in the examples. -/
def demoExe : Path := ⟨"/opt/agent", "agent"⟩

/-- The environment of the examples. -/
def demoEnv : Env where
  Executable := .ok demoExe
  sha256 := sha256.digest
  Patch := demoPatch
  gzipNewReader := demoGzipNewReader
  defaultFetch := fun url => .error (.msg ("bad http status from " ++ url))

/-- A requester that serves a table of URLs and answers every other URL with
an error, as `HTTPRequester.Fetch` does for a status other than 200. -/
def tableRequester (t : List (String × Stream)) : Requester :=
  fun url =>
    match t.lookup url with
    | some r => .ok (some r)
    | none => .error (.msg ("bad http status from " ++ url))

/-- The prior executable of the examples. -/
def bytesA : Bytes := [1, 2, 3, 4]

/-- The new executable of the examples. -/
def bytesB : Bytes := [1, 2, 9, 9, 9]

/-- Bytes that are neither. -/
def bytesC : Bytes := [7, 7]

/-- A file system that holds the executable with bytes `bytesA` and nothing else. -/
def demoFS : FS := fun p => if p = demoExe then some (Node.file bytesA) else none

/-- The world of the examples at start. -/
def demoWorld : World := ⟨demoFS, [], []⟩

/-- No operating system failure. -/
def noFaults : Faults := {}

/-- The download URL of the examples. -/
def demoUrl : String := "http://localhost:8080/agent/v2/linux-amd64.gz"

/-- A file as the compression format of the examples stores it. -/
def demoGzip (b : Bytes) : Stream := ⟨0x1f :: 0x8b :: b, none⟩

/-- The candidate of the examples: version `v2` at `demoUrl`. -/
def demoInfo (isPatch : Bool) (hash : Bytes) : UpdatePackageInfo :=
  { Version := "v2", DownloadUrl := demoUrl, ContentHash := hash, Signature := [],
    CurrentVersion := "", IsPatch := isPatch }

/-- The updater of the examples: gzipped transport, both callbacks set, the
requester serving `table`. -/
def demoUpdater (currentVersion : String) (table : List (String × Stream))
    (info : UpdatePackageInfo) : Updater :=
  { CurrentVersion := currentVersion, Requester := some (tableRequester table), Dir := "./tmp",
    Info := info, OnSuccessfulUpdate := true, OnFailedUpdate := true, IsGzipped := true }

/-- Scenario S4 of the spec: no delta is published and the full download has
the wrong bytes. -/
def updaterS4 : Updater :=
  demoUpdater "v1" [(demoUrl, demoGzip bytesC)] (demoInfo false (sha256.digest bytesB).val)

/-- Scenario S1 of the spec: no delta is published and the full download is
the gzipped new binary. -/
def updaterS1 : Updater :=
  demoUpdater "v1" [(demoUrl, demoGzip bytesB)] (demoInfo false (sha256.digest bytesB).val)

/-- The crash-safety condition of the swap: at least one of the executable and
the displaced file exists and holds exactly `A` or exactly `B`. -/
def oneIsRunnable (P : Path) (A B : Bytes) (s : FS) : Prop :=
  s P = some (Node.file A) ∨ s P = some (Node.file B) ∨
    s (oldPathOf P) = some (Node.file A) ∨ s (oldPathOf P) = some (Node.file B)

instance (P : Path) (A B : Bytes) (s : FS) : Decidable (oneIsRunnable P A B s) := by
  unfold oneIsRunnable
  infer_instance

/-- The state after staging in the examples: the executable holds `bytesA`, the
staged file holds `bytesB`, and a stale displaced file is around. -/
def stagedFS : FS :=
  (demoFS.set (newPathOf demoExe) (some (Node.file bytesB))).set (oldPathOf demoExe)
    (some (Node.file bytesC))

/-- The copy into the staged file stops after one byte with an error; every
other call succeeds. -/
def shortWrite : Faults := { copy := some 1 }

/-- The second rename is refused and so is the recovery. -/
def bothRenamesRefused : Faults := { renameToLive := true, renameBack := true }

/-- A world in which the name of the staged file is taken by a symbolic link
to the name of the displaced file. -/
def linkedStageWorld : World :=
  ⟨demoFS.set (newPathOf demoExe) (some (Node.symlink (oldPathOf demoExe))), [], []⟩

/-- The updater of scenario S1 with `CurrentVersion` set to `dev`. -/
def updaterDev : Updater :=
  demoUpdater "dev" [(demoUrl, demoGzip bytesB)] (demoInfo false (sha256.digest bytesB).val)

/-- An updater that already runs version `v2`, the version of the candidate. -/
def updaterSame : Updater :=
  demoUpdater "v2" [(demoUrl, demoGzip bytesB)] (demoInfo false (sha256.digest bytesB).val)

/-- A world in which a staged file from an earlier run is still around. -/
def staleWorld : World :=
  ⟨demoFS.set (newPathOf demoExe) (some (Node.file [5, 5, 5])), [], []⟩

/-- The updater of scenario S1 for a candidate whose hash has no bytes at all. -/
def updaterShortHash : Updater :=
  demoUpdater "v1" [(demoUrl, demoGzip bytesB)] (demoInfo false [])

/-- The real file behind the executable path in the world with a link. -/
def realExe : Path := ⟨"/opt/agent/releases", "agent-1.0"⟩

/-- A world in which the executable path is a symbolic link to `realExe`, which
holds `bytesA`. -/
def linkWorld : World :=
  ⟨fun p =>
      if p = demoExe then some (Node.symlink realExe)
      else if p = realExe then some (Node.file bytesA)
      else none,
    [], []⟩

/-! ## `trigger.go`: the reference triggers -/

/-! A `time.Time` is an instant, an `Int`: nanoseconds since the zero value
`time.Time{}`; the range of `time.Time` is not a concern at the dates the
program runs.  A `time.Duration` is an `Int` too, a signed 64 bit count of
nanoseconds, and arithmetic on durations wraps. -/

/-- `time.Second`. -/
def time_Second : Int := 1000000000

/-- `time.Hour`. -/
def time_Hour : Int := 3600000000000

/-- The value of a signed 64 bit integer after an operation whose exact result
is `x`. -/
def wrapInt64 (x : Int) : Int :=
  (x + 9223372036854775808) % 18446744073709551616 - 9223372036854775808

/-- `t.Add(d)`. -/
def Time.Add (t d : Int) : Int := t + d

/-- `t.Before(u)`. -/
def Time.Before (t u : Int) : Bool := decide (t < u)

/-- `rand.Intn(n)` for `n > 0`: a number in `[0, n)`, here the number the
generator is about to produce, reduced. -/
def rand_Intn (next : Nat) (n : Nat) : Nat := next % n

/-- What is at the path of the `cktime` file: nothing, the RFC 3339 text of a
whole second (counted from the zero time), or bytes that do not parse. -/
inductive CkFile where
  | absent
  | stamp (seconds : Int)
  | garbage
deriving DecidableEq, Repr

/-- `t.Format(time.RFC3339)` as file content: the layout has no fraction of a
second, so the instant is cut to the whole second. -/
def formatRFC3339 (t : Int) : CkFile := CkFile.stamp (t / time_Second)

/-- The instant that a file written by `formatRFC3339` parses to. -/
def parseRFC3339 (seconds : Int) : Int := seconds * time_Second

/-- `common.go`: `Info`, the manifest of the remote trigger. -/
structure Info where
  Version : String
  Sha256 : Bytes
  IsPatch : Bool
deriving DecidableEq, Repr

/-- Everything outside the repository that a trigger calls. -/
structure TriggerEnv where
  /-- The constant `plat`, `runtime.GOOS + "-" + runtime.GOARCH`. -/
  plat : String
  /-- `url.QueryEscape`. -/
  QueryEscape : String → String
  /-- `http.Get(url)`, the test of the status and the JSON decoding of the body
  in `RemoteFileCheckTrigger.getInfo`. -/
  httpGetJSON : String → Except GoError Info
  /-- `os.ReadFile(path)` and `json.Unmarshal` in `LocalFileCheckTrigger.getInfo`:
  the decoded map, a nil entry being `none`. -/
  readManifest : String → Except GoError (String → Option UpdatePackageInfo)
  /-- `time.Now()` when `readTime` reads it. -/
  nowRead : Int
  /-- `time.Now()` when `check` reads it. -/
  nowCheck : Int
  /-- `time.Now()` when `SetUpdateTime` reads it. -/
  nowWrite : Int
  /-- The number the random generator is about to produce. -/
  rand : Nat
  /-- `ioutil.ReadFile` of an existing `cktime` file fails. -/
  readFault : Bool
  /-- `ioutil.WriteFile` of the `cktime` file fails. -/
  writeFault : Bool
  /-- Whether a receiver takes the candidate that `check` sends.  The channel
  that `Trigger` makes has no buffer, and the send in `check` is not part of a
  `select`: without a receiver it blocks for ever. -/
  received : Bool

/-- What a trigger changes: the `cktime` file, the candidates sent on the
channel (oldest first) and the messages logged (oldest first). -/
structure TriggerState where
  cktime : CkFile
  sent : List UpdatePackageInfo
  log : List String
deriving DecidableEq, Repr

/-- `utils.go`: `readTime`. -/
def readTime (env : TriggerEnv) (ck : CkFile) : Int :=
  match ck with
  | .absent => 0
  | .garbage => Time.Add env.nowRead (1 * time_Hour)
  | .stamp s =>
    if env.readFault then Time.Add env.nowRead (1 * time_Hour)
    else parseRFC3339 s

/-- `utils.go`: `writeTime`.  A write that fails is taken to leave the file as
it was. -/
def writeTime (env : TriggerEnv) (ck : CkFile) (t : Int) : Bool × CkFile :=
  if env.writeFault then (false, ck) else (true, formatRFC3339 t)

/-- `trigger.go`: `RemoteFileCheckTrigger`. -/
structure RemoteFileCheckTrigger where
  Dir : String
  ApiUrl : String
  BinURL : String
  CmdName : String
  CheckTimeDuration : Int

/-- `RemoteFileCheckTrigger.getInfo`. -/
def RemoteFileCheckTrigger.getInfo (env : TriggerEnv) (f : RemoteFileCheckTrigger) :
    Except GoError Info :=
  let url := f.ApiUrl ++ "/" ++ env.QueryEscape f.CmdName ++ "/" ++ env.QueryEscape env.plat
    ++ ".json"
  match env.httpGetJSON url with
  | .error e => .error e
  | .ok u =>
    if u.Sha256.length ≠ 32 then .error (.msg "bad cmd hash in info") else .ok u

/-- `RemoteFileCheckTrigger.NextUpdate`. -/
def RemoteFileCheckTrigger.NextUpdate (env : TriggerEnv) (_f : RemoteFileCheckTrigger)
    (ck : CkFile) : Int :=
  readTime env ck

/-- `RemoteFileCheckTrigger.SetUpdateTime`. -/
def RemoteFileCheckTrigger.SetUpdateTime (env : TriggerEnv) (f : RemoteFileCheckTrigger)
    (ck : CkFile) : Bool × CkFile :=
  let wait := f.CheckTimeDuration
  let waitrand := wrapInt64 ((rand_Intn env.rand 3 : Int) * time_Second)
  writeTime env ck (Time.Add env.nowWrite (wrapInt64 (wait + waitrand)))

/-- `RemoteFileCheckTrigger.check`.  The result is the state in which `check`
returns; `none` means that it never returns, blocked in the send of the
candidate, with nothing written. -/
def RemoteFileCheckTrigger.check (env : TriggerEnv) (f : RemoteFileCheckTrigger)
    (st : TriggerState) : Option TriggerState :=
  if Time.Before (f.NextUpdate env st.cktime) env.nowCheck then
    match f.getInfo env with
    | .error e => some { st with log := st.log ++ [e.Error] }
    | .ok info =>
      -- ch <- UpdatePackageInfo{...}
      let afterSend : Option TriggerState :=
        if info.Version ≠ "" then
          if env.received then
            some { st with sent := st.sent ++ [{
              Version := info.Version,
              ContentHash := info.Sha256,
              IsPatch := info.IsPatch,
              DownloadUrl := f.BinURL ++ "/" ++ f.CmdName ++ "/" ++ info.Version ++ "/" ++
                env.plat ++ ".gz",
              Signature := [],
              CurrentVersion := "" }] }
          else none
        else some st
      match afterSend with
      | none => none
      | some st1 =>
        match f.SetUpdateTime env st1.cktime with
        | (false, ck) =>
          some { st1 with cktime := ck, log := st1.log ++ ["error setting next update time"] }
        | (true, ck) => some { st1 with cktime := ck }
  else
    some { st with log := st.log ++ ["the next update checkpoint has not yet arrived"] }

/-- `trigger.go`: `LocalFileCheckTrigger`. -/
structure LocalFileCheckTrigger where
  Dir : String
  CheckPath : String
  BinURL : String
  CmdName : String
  CheckTimeDuration : Int

/-- `LocalFileCheckTrigger.getInfo`: `(nil, nil)` is `.ok none`. -/
def LocalFileCheckTrigger.getInfo (env : TriggerEnv) (f : LocalFileCheckTrigger) :
    Except GoError (Option UpdatePackageInfo) :=
  match env.readManifest f.CheckPath with
  | .error e => .error e
  | .ok u =>
    match u f.CmdName with
    | none => .ok none
    | some entry =>
      if entry.ContentHash.length ≠ 32 then .error (.msg "bad cmd hash in info")
      else .ok (some entry)

/-- `LocalFileCheckTrigger.NextUpdate`. -/
def LocalFileCheckTrigger.NextUpdate (env : TriggerEnv) (_f : LocalFileCheckTrigger)
    (ck : CkFile) : Int :=
  readTime env ck

/-- `LocalFileCheckTrigger.SetUpdateTime`. -/
def LocalFileCheckTrigger.SetUpdateTime (env : TriggerEnv) (f : LocalFileCheckTrigger)
    (ck : CkFile) : Bool × CkFile :=
  let wait := f.CheckTimeDuration
  let waitrand := wrapInt64 ((rand_Intn env.rand 3600 : Int) * time_Second)
  writeTime env ck (Time.Add env.nowWrite (wrapInt64 (wait + waitrand)))

/-- `LocalFileCheckTrigger.check`.  The result is the state in which `check`
returns; `none` means that it never returns, blocked in the send of the
candidate, with nothing written. -/
def LocalFileCheckTrigger.check (env : TriggerEnv) (f : LocalFileCheckTrigger)
    (st : TriggerState) : Option TriggerState :=
  if Time.Before (f.NextUpdate env st.cktime) env.nowCheck then
    match f.getInfo env with
    | .error _ => some { st with log := st.log ++ ["error getting info"] }
    | .ok none => some st
    | .ok (some info) =>
      -- ch <- UpdatePackageInfo{...}
      let afterSend : Option TriggerState :=
        if info.Version ≠ "" then
          if env.received then
            some { st with sent := st.sent ++ [{
              Version := info.Version,
              ContentHash := info.ContentHash,
              IsPatch := info.IsPatch,
              DownloadUrl := f.BinURL ++ info.DownloadUrl,
              Signature := [],
              CurrentVersion := "" }] }
          else none
        else some st
      match afterSend with
      | none => none
      | some st1 =>
        match f.SetUpdateTime env st1.cktime with
        | (false, ck) =>
          some { st1 with cktime := ck, log := st1.log ++ ["error setting next update time"] }
        | (true, ck) => some { st1 with cktime := ck }
  else
    some { st with log := st.log ++ ["the next update checkpoint has not yet arrived"] }

/-- The bound of the random part of the next update time, in seconds:
`rand.Intn(3)` in the remote trigger. -/
def remoteJitter : Int := 3

/-- The bound of the random part of the next update time, in seconds:
`rand.Intn(3600)` in the local trigger. -/
def localJitter : Int := 3600

/-! ## `cmd/updater/main.go`: where the publisher writes -/

/-- The path of the delta in `createUpdate` (line 127),
`filepath.Join(genDir, fileName, version, platform+".patch")`, for path elements
that are clean. -/
def createUpdate_patchPath (genDir fileName version platform : String) : String :=
  genDir ++ "/" ++ fileName ++ "/" ++ version ++ "/" ++ platform ++ ".patch"

/-- The path of the gzipped binary in `createUpdate` (line 86),
`filepath.Join(genDir, fileName, version, platform+".gz")`. -/
def createUpdate_gzPath (genDir fileName version platform : String) : String :=
  genDir ++ "/" ++ fileName ++ "/" ++ version ++ "/" ++ platform ++ ".gz"

/-! ## `requester.go`: the headers of `HTTPRequester` -/

/-- A `map[string]string` as the list of its entries, keys distinct.  `range`
visits the entries in the order of the list, which stands for whatever order
the runtime picks. -/
abbrev HeaderMap := List (String × String)

/-- The assignment `m[key] = value`. -/
def HeaderMap.assign (m : HeaderMap) (key value : String) : HeaderMap :=
  m.filter (fun e => e.1 ≠ key) ++ [(key, value)]

/-- `requester.go`: `HTTPRequester`; a nil map is `none`. -/
structure HTTPRequester where
  Hearder : Option HeaderMap
deriving DecidableEq, Repr

/-- `HTTPRequester.SetHeader`: for every entry of `header`, a new map is made
and the entry is stored in it. -/
def HTTPRequester.SetHeader (httpRequester : HTTPRequester) (header : HeaderMap) :
    HTTPRequester :=
  header.foldl
    (fun _ kv => { Hearder := some (HeaderMap.assign [] kv.1 kv.2) })
    httpRequester

/-- The headers of the request that `HTTPRequester.Fetch` sends (lines 25 to 34):
one `req.Header.Add(key, value)` for every entry of the stored map. -/
def HTTPRequester.requestHeader (httpRequester : HTTPRequester) : List (String × String) :=
  match httpRequester.Hearder with
  | none => []
  | some m => m.foldl (fun h kv => h ++ [kv]) []

/-- The remote trigger of the examples: every three seconds, at the server of
`demoUrl`. -/
def demoRemote : RemoteFileCheckTrigger :=
  { Dir := "./tmp/", ApiUrl := "http://localhost:8080", BinURL := "http://localhost:8080",
    CmdName := "agent", CheckTimeDuration := 3 * time_Second }

/-- The local trigger of the examples. -/
def demoLocal : LocalFileCheckTrigger :=
  { Dir := "./tmp/", CheckPath := "/etc/agent/updates.json", BinURL := "http://localhost:8080",
    CmdName := "agent", CheckTimeDuration := 3 * time_Second }

/-- The manifest entry of the examples for the local trigger. -/
def demoEntry : UpdatePackageInfo :=
  { Version := "v2", DownloadUrl := "/agent/v2/linux-amd64.gz",
    ContentHash := (sha256.digest bytesB).val, Signature := [], CurrentVersion := "",
    IsPatch := false }

/-- The manifest that the server of the examples announces: version `v2`, with
a delta. -/
def demoManifest : Info :=
  { Version := "v2", Sha256 := (sha256.digest bytesB).val, IsPatch := true }

/-- The instant of the examples: half a second past a whole second, some 2025
years after the zero time. -/
def demoNow : Int := 63900000000500000000

/-- The environment of the triggers in the examples: the server announces
version `v2` with a delta, the local manifest has an entry for `agent` only,
every clock reading is `demoNow`, the random number is `rand` and the engine
receives what is sent. -/
def demoTriggerEnv (rand : Nat) : TriggerEnv :=
  { plat := "linux-amd64",
    QueryEscape := fun s => s,
    httpGetJSON := fun url =>
      if url = "http://localhost:8080/agent/linux-amd64.json" then
        .ok demoManifest
      else .error (.msg ("bad http status from " ++ url)),
    readManifest := fun path =>
      if path = "/etc/agent/updates.json" then
        .ok (fun cmd => if cmd = "agent" then some demoEntry else none)
      else .error (.msg "open: no such file or directory"),
    nowRead := demoNow, nowCheck := demoNow, nowWrite := demoNow,
    rand := rand, readFault := false, writeFault := false, received := true }

/-- The environment of the examples when nobody receives from the channel of
the trigger any more. -/
def noReceiverEnv : TriggerEnv := { demoTriggerEnv 0 with received := false }

/-- A local trigger for a command that the manifest does not list. -/
def localOther : LocalFileCheckTrigger := { demoLocal with CmdName := "other" }

/-- The state of a trigger that has never run: no `cktime` file. -/
def freshTrigger : TriggerState := ⟨CkFile.absent, [], []⟩

/-- What the publisher serves after `createUpdate` with `-patch`: the delta from
`bytesA` to `bytesB` at the path it writes it to, and no gzipped binary. -/
def publishedDelta : List (String × Stream) :=
  [(createUpdate_patchPath "http://localhost:8080" "agent" "v2" "linux-amd64",
    ⟨[2, 9, 9, 9], none⟩)]

/-- A header map with two entries, and the same map visited in the other
order. -/
def twoHeaders : HeaderMap := [("Authorization", "Bearer t"), ("X-Agent", "1")]

/-- The map `twoHeaders` visited in the other order. -/
def twoHeadersSwapped : HeaderMap := [("X-Agent", "1"), ("Authorization", "Bearer t")]

/-! ## Lemmas on paths and on the file system -/

theorem newPathOf_ne_self (p : Path) : newPathOf p ≠ p := by
  intro h
  have hb : (newPathOf p).base.length = p.base.length := by rw [h]
  have h1 : ".".length = 1 := rfl
  have h2 : ".new".length = 4 := rfl
  simp only [newPathOf, filepath_Join, filepath_Base, String.length_append, h1, h2] at hb
  omega

theorem oldPathOf_ne_self (p : Path) : oldPathOf p ≠ p := by
  intro h
  have hb : (oldPathOf p).base.length = p.base.length := by rw [h]
  have h1 : ".".length = 1 := rfl
  have h2 : ".old".length = 4 := rfl
  simp only [oldPathOf, filepath_Join, filepath_Base, String.length_append, h1, h2] at hb
  omega

theorem newPathOf_ne_oldPathOf (p : Path) : newPathOf p ≠ oldPathOf p := by
  intro h
  have hb : (newPathOf p).base.data = (oldPathOf p).base.data := by rw [h]
  simp [newPathOf, oldPathOf, filepath_Join, filepath_Base, String.data_append] at hb

theorem FS.set_same (fs : FS) (p : Path) (n : Option Node) : (fs.set p n) p = n := by
  simp [FS.set]

theorem FS.set_other (fs : FS) (p q : Path) (n : Option Node) (h : q ≠ p) :
    (fs.set p n) q = fs q := by
  simp [FS.set, h]

/-! ## Lemmas on the fetch functions: they touch neither files nor callbacks -/

theorem fetch_frame (env : Env) (u : Updater) (url : String) (w : World) :
    (u.fetch env url w).2 = { w with fetched := w.fetched ++ [url] } := by
  unfold Updater.fetch
  cases u.Requester with
  | none => rfl
  | some req =>
    simp only
    cases req url with
    | error e => rfl
    | ok o => cases o <;> rfl

theorem fetch_result (env : Env) (u : Updater) (url : String) (w w0 : World) :
    (u.fetch env url w).1 = (u.fetch env url w0).1 := by
  unfold Updater.fetch
  cases u.Requester with
  | none => rfl
  | some req =>
    simp only
    cases req url with
    | error e => rfl
    | ok o => cases o <;> rfl

theorem fetchBin_frame (env : Env) (u : Updater) (w : World) :
    (u.fetchBin env w).2 = { w with fetched := w.fetched ++ [u.Info.DownloadUrl] } := by
  have hf := fetch_frame env u u.Info.DownloadUrl w
  unfold Updater.fetchBin
  rcases h : u.fetch env u.Info.DownloadUrl w with ⟨r, w1⟩
  rw [h] at hf
  simp only at hf
  subst hf
  cases r with
  | error e => rfl
  | ok r =>
    simp only
    split
    · cases env.gzipNewReader r <;> rfl
    · rfl

theorem fetchBin_result (env : Env) (u : Updater) (w w0 : World) :
    (u.fetchBin env w).1 = (u.fetchBin env w0).1 := by
  have hr := fetch_result env u u.Info.DownloadUrl w w0
  unfold Updater.fetchBin
  rcases h : u.fetch env u.Info.DownloadUrl w with ⟨r, w1⟩
  rcases h0 : u.fetch env u.Info.DownloadUrl w0 with ⟨r0, w2⟩
  rw [h, h0] at hr
  simp only at hr
  subst hr
  cases r with
  | error e => rfl
  | ok r =>
    simp only
    split
    · cases env.gzipNewReader r <;> rfl
    · rfl

theorem fetchAndApplyPatch_frame (env : Env) (u : Updater) (old : Bytes) (w : World) :
    (u.fetchAndApplyPatch env old w).2 =
      { w with fetched := w.fetched ++ [u.Info.DownloadUrl ++ ".patch"] } := by
  have hf := fetch_frame env u (u.Info.DownloadUrl ++ ".patch") w
  unfold Updater.fetchAndApplyPatch
  rcases h : u.fetch env (u.Info.DownloadUrl ++ ".patch") w with ⟨r, w1⟩
  rw [h] at hf
  simp only at hf
  subst hf
  cases r <;> rfl

theorem fetchAndApplyPatch_result (env : Env) (u : Updater) (old : Bytes) (w w0 : World) :
    (u.fetchAndApplyPatch env old w).1 = (u.fetchAndApplyPatch env old w0).1 := by
  have hr := fetch_result env u (u.Info.DownloadUrl ++ ".patch") w w0
  unfold Updater.fetchAndApplyPatch
  rcases h : u.fetch env (u.Info.DownloadUrl ++ ".patch") w with ⟨r, w1⟩
  rcases h0 : u.fetch env (u.Info.DownloadUrl ++ ".patch") w0 with ⟨r0, w2⟩
  rw [h, h0] at hr
  simp only at hr
  subst hr
  cases r <;> rfl

theorem fetchAndVerifyPatch_frame (env : Env) (u : Updater) (old : Bytes) (w : World) :
    (u.fetchAndVerifyPatch env old w).2 =
      { w with fetched := w.fetched ++ [u.Info.DownloadUrl ++ ".patch"] } := by
  have hf := fetchAndApplyPatch_frame env u old w
  unfold Updater.fetchAndVerifyPatch
  rcases h : u.fetchAndApplyPatch env old w with ⟨⟨b, e⟩, w1⟩
  rw [h] at hf
  simp only at hf
  subst hf
  cases e with
  | some e => rfl
  | none => simp only; split <;> rfl

theorem fetchAndVerifyFullBin_frame (env : Env) (u : Updater) (w : World) :
    (u.fetchAndVerifyFullBin env w).2 =
      { w with fetched := w.fetched ++ [u.Info.DownloadUrl] } := by
  have hf := fetchBin_frame env u w
  unfold Updater.fetchAndVerifyFullBin
  rcases h : u.fetchBin env w with ⟨r, w1⟩
  rw [h] at hf
  simp only at hf
  subst hf
  cases r with
  | error e => rfl
  | ok b => simp only; split <;> rfl

/-- The patch path returns bytes exactly when the patch applied without error
and the patched bytes have the announced hash. -/
theorem fetchAndVerifyPatch_ok_iff (env : Env) (u : Updater) (old : Bytes) (w : World)
    (bin : Bytes) :
    (u.fetchAndVerifyPatch env old w).1 = .ok bin ↔
      (u.fetchAndApplyPatch env old w).1 = (bin, none) ∧
        (env.sha256 bin).val = u.Info.ContentHash := by
  unfold Updater.fetchAndVerifyPatch
  rcases h : u.fetchAndApplyPatch env old w with ⟨⟨b, e⟩, w1⟩
  cases e with
  | some e => simp
  | none =>
    simp only [verifySha]
    by_cases hv : (env.sha256 b).val = u.Info.ContentHash
    · simp only [hv, decide_True, Bool.not_true, Bool.false_eq_true, if_false, Except.ok.injEq,
        Prod.mk.injEq, and_true]
      constructor
      · intro hb; subst hb; exact ⟨rfl, hv⟩
      · intro hb; exact hb.1
    · simp only [hv, decide_False, Bool.not_false, if_true, Prod.mk.injEq, and_true]
      constructor
      · intro hb; cases hb
      · intro hb; rcases hb with ⟨hb, hs⟩; subst hb; exact absurd hs hv

/-- The full path returns bytes exactly when the download succeeded and the
downloaded bytes have the announced hash. -/
theorem fetchAndVerifyFullBin_ok_iff (env : Env) (u : Updater) (w : World) (bin : Bytes) :
    (u.fetchAndVerifyFullBin env w).1 = .ok bin ↔
      (u.fetchBin env w).1 = .ok bin ∧ (env.sha256 bin).val = u.Info.ContentHash := by
  unfold Updater.fetchAndVerifyFullBin
  rcases h : u.fetchBin env w with ⟨r, w1⟩
  cases r with
  | error e => simp
  | ok b =>
    simp only [verifySha]
    by_cases hv : (env.sha256 b).val = u.Info.ContentHash
    · simp only [hv, decide_True, Bool.not_true, Bool.false_eq_true, if_false, Except.ok.injEq,
        and_true]
      constructor
      · intro hb; subst hb; exact ⟨rfl, hv⟩
      · intro hb; exact hb.1
    · simp only [hv, decide_False, Bool.not_false, if_true, Except.ok.injEq]
      constructor
      · intro hb; cases hb
      · intro hb; rcases hb with ⟨hb, hs⟩; subst hb; exact absurd hs hv

/-- A downloaded full binary with a different hash is reported as
`ErrHashMismatch`. -/
theorem fetchAndVerifyFullBin_mismatch (env : Env) (u : Updater) (w : World) (bin : Bytes)
    (hb : (u.fetchBin env w).1 = .ok bin)
    (hs : (env.sha256 bin).val ≠ u.Info.ContentHash) :
    (u.fetchAndVerifyFullBin env w).1 = .error GoError.ErrHashMismatch := by
  unfold Updater.fetchAndVerifyFullBin
  rcases h : u.fetchBin env w with ⟨r, w1⟩
  rw [h] at hb
  simp only at hb
  subst hb
  simp [verifySha, hs]

/-- The test vector of FIPS 180-4 for the message "abc". -/
theorem sha256_abc : sha256.Sum256 [97, 98, 99] =
    [186, 120, 22, 191, 143, 1, 207, 234, 65, 65, 64, 222, 93, 174, 34, 35,
     176, 3, 97, 163, 150, 23, 122, 156, 180, 16, 255, 97, 242, 0, 21, 173] := by
  decide

/-! ## C1: without verified bytes nothing on disk changes -/

/-- What `Update` does once the old binary is open and the patch path has
failed and the full path has failed: it returns the error of the full path and
leaves the files alone. -/
theorem update_after_open (env : Env) (flt : Faults) (u : Updater) (w : World) (old : Bytes)
    (e1 e2 : GoError)
    (h1 : (u.fetchAndVerifyPatch env old w).1 = .error e1)
    (h2 : (u.fetchAndVerifyFullBin env
      { w with fetched := w.fetched ++ [u.Info.DownloadUrl ++ ".patch"] }).1 = .error e2) :
    (match u.fetchAndVerifyPatch env old w with
      | (.ok bin, w1) => u.install env flt bin w1
      | (.error _, w1) =>
        match u.fetchAndVerifyFullBin env w1 with
        | (.error e, w2) => (some e, w2)
        | (.ok bin, w2) => u.install env flt bin w2) =
    (some e2, { w with fetched := w.fetched ++ [u.Info.DownloadUrl ++ ".patch", u.Info.DownloadUrl] }) := by
  have hf1 := fetchAndVerifyPatch_frame env u old w
  rcases hp : u.fetchAndVerifyPatch env old w with ⟨r1, w1⟩
  rw [hp] at h1 hf1
  simp only at h1 hf1
  subst h1 hf1
  simp only
  have hf2 := fetchAndVerifyFullBin_frame env u
    { w with fetched := w.fetched ++ [u.Info.DownloadUrl ++ ".patch"] }
  rcases hq : u.fetchAndVerifyFullBin env
    { w with fetched := w.fetched ++ [u.Info.DownloadUrl ++ ".patch"] } with ⟨r2, w2⟩
  rw [hq] at h2 hf2
  simp only at h2 hf2
  subst h2 hf2
  simp

theorem patch_path_fails (env : Env) (u : Updater) (old : Bytes) (w : World)
    (hpatch : ∀ bin, (u.fetchAndApplyPatch env old w).1 = (bin, none) →
      (env.sha256 bin).val ≠ u.Info.ContentHash) :
    ∃ e, (u.fetchAndVerifyPatch env old w).1 = .error e := by
  cases h : (u.fetchAndVerifyPatch env old w).1 with
  | error e => exact ⟨e, rfl⟩
  | ok bin =>
    have := (fetchAndVerifyPatch_ok_iff env u old w bin).1 h
    exact absurd this.2 (hpatch bin this.1)

theorem full_path_fails (env : Env) (u : Updater) (w : World)
    (hfull : ∀ bin, (u.fetchBin env w).1 = .ok bin →
      (env.sha256 bin).val ≠ u.Info.ContentHash) :
    ∃ e, (u.fetchAndVerifyFullBin env w).1 = .error e := by
  cases h : (u.fetchAndVerifyFullBin env w).1 with
  | error e => exact ⟨e, rfl⟩
  | ok bin =>
    have := (fetchAndVerifyFullBin_ok_iff env u w bin).1 h
    exact absurd this.2 (hfull bin this.1)

/-- The core of C1, C5 and C9: when neither path yields verified bytes, `Update`
fails, touches no file, invokes no callback, and reports `ErrHashMismatch` if
it got as far as downloading the full binary. -/
theorem update_unverified (env : Env) (flt : Faults) (u : Updater)
    (w : World)
    (hver : u.Info.Version ≠ u.CurrentVersion)
    (hpatch : ∀ old bin, openOldBinary env flt w.fs = .ok old →
      (u.fetchAndApplyPatch env old w).1 = (bin, none) →
      (env.sha256 bin).val ≠ u.Info.ContentHash)
    (hfull : ∀ bin, (u.fetchBin env w).1 = .ok bin →
      (env.sha256 bin).val ≠ u.Info.ContentHash) :
    (u.Update env flt w).1 ≠ none ∧
    (u.Update env flt w).2.fs = w.fs ∧
    (u.Update env flt w).2.hooks = w.hooks ∧
    (∀ bin, (u.fetchBin env w).1 = .ok bin → (u.Update env flt w).2.fetched ≠ w.fetched →
      (u.Update env flt w).1 = some GoError.ErrHashMismatch) := by
  unfold Updater.Update
  unfold openOldBinary at hpatch
  cases hexe : env.Executable with
  | error e => simp
  | ok path0 =>
    rw [hexe] at hpatch
    simp only [hver, if_false] at hpatch ⊢
    cases hopen : os_Open flt.openOld w.fs
        (match EvalSymlinks flt w.fs path0 with
          | .ok resolvedPath => resolvedPath
          | .error _ => path0) with
    | error e => simp
    | ok old =>
      simp only
      obtain ⟨e1, h1⟩ := patch_path_fails env u old w (fun bin => hpatch old bin hopen)
      have hfull2 : ∀ bin, (u.fetchBin env
          { w with fetched := w.fetched ++ [u.Info.DownloadUrl ++ ".patch"] }).1 = .ok bin →
          (env.sha256 bin).val ≠ u.Info.ContentHash := by
        intro bin hb
        exact hfull bin (by rw [fetchBin_result env u w _]; exact hb)
      obtain ⟨e2, h2⟩ := full_path_fails env u _ hfull2
      rw [update_after_open env flt u w old e1 e2 h1 h2]
      refine ⟨by simp, rfl, rfl, ?_⟩
      intro bin hb _
      have hb2 : (u.fetchBin env
          { w with fetched := w.fetched ++ [u.Info.DownloadUrl ++ ".patch"] }).1 = .ok bin := by
        rw [fetchBin_result env u _ w]; exact hb
      have hm := fetchAndVerifyFullBin_mismatch env u _ bin hb2 (hfull bin hb)
      rw [hm] at h2
      cases h2
      rfl

/-- C1. For a candidate whose version differs from the current one: if the
patch path, applied to the old binary that `Update` opens, yields no bytes with
the announced SHA-256 and the full path yields none either, `Update` returns a
non-nil error and the file system after the call is the file system before it,
so that the executable, the staged file and the displaced file are untouched.  When the
requester was asked at all and the full download itself succeeded, the error is
`ErrHashMismatch`. -/
theorem C1_unverified_update_fails_without_mutation (env : Env) (flt : Faults) (u : Updater)
    (w : World)
    (hver : u.Info.Version ≠ u.CurrentVersion)
    (hpatch : ∀ old bin, openOldBinary env flt w.fs = .ok old →
      (u.fetchAndApplyPatch env old w).1 = (bin, none) →
      (env.sha256 bin).val ≠ u.Info.ContentHash)
    (hfull : ∀ bin, (u.fetchBin env w).1 = .ok bin →
      (env.sha256 bin).val ≠ u.Info.ContentHash) :
    (u.Update env flt w).1 ≠ none ∧
    (u.Update env flt w).2.fs = w.fs ∧
    (∀ bin, (u.fetchBin env w).1 = .ok bin → (u.Update env flt w).2.fetched ≠ w.fetched →
      (u.Update env flt w).1 = some GoError.ErrHashMismatch) := by
  obtain ⟨herr, hfs, _, hmis⟩ := update_unverified env flt u w hver hpatch hfull
  exact ⟨herr, hfs, hmis⟩

/-- The theorem of C1 at a concrete input: scenario S4 of the spec, where no delta is published and the full download has the wrong bytes. -/
theorem C1_witness :
    (updaterS4.Update demoEnv noFaults demoWorld).1 ≠ none ∧
    (updaterS4.Update demoEnv noFaults demoWorld).2.fs = demoWorld.fs ∧
    (∀ bin, (updaterS4.fetchBin demoEnv demoWorld).1 = .ok bin →
      (updaterS4.Update demoEnv noFaults demoWorld).2.fetched ≠ demoWorld.fetched →
      (updaterS4.Update demoEnv noFaults demoWorld).1 = some GoError.ErrHashMismatch) :=
  C1_unverified_update_fails_without_mutation demoEnv noFaults updaterS4 demoWorld
    (by decide)
    (by
      intro old bin _ h
      have hp : (updaterS4.fetchAndApplyPatch demoEnv old demoWorld).1 =
          ([], some (.msg ("bad http status from " ++ (demoUrl ++ ".patch")))) := rfl
      rw [hp] at h
      cases h)
    (by
      intro bin h
      have hb : (updaterS4.fetchBin demoEnv demoWorld).1 = .ok bytesC := by decide
      rw [hb] at h
      cases h
      decide)

/-! ## C2: a successful swap leaves the verified bytes at the executable -/

theorem followLinks_mono (fs : FS) :
    ∀ (n m : Nat) (p q : Path), followLinks fs n p = some q → n ≤ m →
      followLinks fs m p = some q := by
  intro n
  induction n with
  | zero => intro m p q h; simp [followLinks] at h
  | succ n ih =>
    intro m p q h hle
    obtain ⟨m, rfl⟩ : ∃ k, m = k + 1 := ⟨m - 1, by omega⟩
    unfold followLinks at h ⊢
    cases hp : fs p with
    | none => rw [hp] at h; simpa using h
    | some nd =>
      cases nd with
      | file b => rw [hp] at h; simpa using h
      | symlink t =>
        rw [hp] at h
        simp only at h ⊢
        exact ih m t q h (by omega)

/-- A path that is not a symbolic link leads to itself. -/
theorem followLinks_not_link (fs : FS) (n : Nat) (p : Path)
    (h : ∀ t, fs p ≠ some (Node.symlink t)) : followLinks fs (n + 1) p = some p := by
  unfold followLinks
  cases hp : fs p with
  | none => rfl
  | some nd =>
    cases nd with
    | file b => rfl
    | symlink t => exact absurd hp (h t)

/-- Where following links ends there is no link. -/
theorem followLinks_end (fs : FS) :
    ∀ (n : Nat) (p q : Path), followLinks fs n p = some q → ∀ t, fs q ≠ some (Node.symlink t) := by
  intro n
  induction n with
  | zero => intro p q h; simp [followLinks] at h
  | succ n ih =>
    intro p q h
    unfold followLinks at h
    cases hp : fs p with
    | none =>
      rw [hp] at h
      simp only [Option.some.injEq] at h
      subst h
      intro t; rw [hp]; simp
    | some nd =>
      cases nd with
      | file b =>
        rw [hp] at h
        simp only [Option.some.injEq] at h
        subst h
        intro t; rw [hp]; simp
      | symlink t =>
        rw [hp] at h
        exact ih t q h

/-- A path whose file can be read exists. -/
theorem exists_of_os_Open (fs : FS) (p : Path) (b : Bytes) (f : Bool)
    (h : os_Open f fs p = .ok b) : fs p ≠ none := by
  intro hp
  unfold os_Open at h
  cases f with
  | true => simp at h
  | false =>
    simp only [Bool.false_eq_true, if_false, openLinkLimit, followLinks, hp] at h
    simp at h

/-- The path that `Update` opens, the executable with links resolved when that
works, reads as the executable itself does. -/
theorem os_Open_resolved (flt : Faults) (fs : FS) (p : Path) (b : Bytes)
    (h : os_Open false fs p = .ok b) :
    os_Open false fs
      (match EvalSymlinks flt fs p with
        | .ok resolvedPath => resolvedPath
        | .error _ => p) = .ok b := by
  cases he : EvalSymlinks flt fs p with
  | error e => exact h
  | ok r =>
    simp only
    unfold EvalSymlinks at he
    cases hfe : flt.evalSymlinks with
    | true => rw [hfe] at he; simp at he
    | false =>
      rw [hfe] at he
      simp only [Bool.false_eq_true, if_false] at he
      unfold os_Open at h ⊢
      simp only [Bool.false_eq_true, if_false] at h ⊢
      cases hq : followLinks fs (openLinkLimit + 1) p with
      | none => rw [hq] at h; simp at h
      | some q =>
        rw [hq] at h
        simp only at h
        have hm := followLinks_mono fs _ (evalSymlinksLimit + 1) p q hq
          (by simp [openLinkLimit, evalSymlinksLimit])
        rw [hm] at he
        simp only at he
        have hrq : r = q := by
          cases hfq : fs q with
          | none => rw [hfq] at he; simp at he
          | some nd => rw [hfq] at he; simp only [Except.ok.injEq] at he; exact he.symm
        subst hrq
        rw [followLinks_not_link fs openLinkLimit r (followLinks_end fs _ p r hq)]
        exact h

/-- With a staged path that is not a link and an open that succeeds,
`fromStream` is the swap on the file system in which the staged file has been
emptied and written. -/
theorem fromStream_eq_swap (env : Env) (flt : Faults) (newBytes : Bytes) (fs : FS) (P : Path)
    (hexe : env.Executable = .ok P)
    (hnew : ∀ t, fs (newPathOf P) ≠ some (Node.symlink t))
    (hopen : flt.openNew = false) :
    fromStream env flt newBytes fs =
      fromStream_swap flt P (newPathOf P)
        (io_Copy_toFile flt.copy (fs.set (newPathOf P) (some (Node.file []))) (newPathOf P)
          newBytes).2
        [fs, fs.set (newPathOf P) (some (Node.file [])),
          (io_Copy_toFile flt.copy (fs.set (newPathOf P) (some (Node.file []))) (newPathOf P)
            newBytes).2] := by
  unfold fromStream
  rw [hexe]
  simp only [os_OpenFile, hopen, Bool.false_eq_true, if_false,
    followLinks_not_link fs openLinkLimit (newPathOf P) hnew]

/-- Hiding a file changes no name and no content. -/
theorem hideFile_fs (f : Bool) (fs : FS) (p : Path) : (hideFile f fs p).2 = fs := by
  unfold hideFile
  cases f <;> rfl

/-- The entry at the executable after a removal at the displaced path. -/
theorem os_Remove_old_frame (f : Bool) (fs : FS) (P q : Path) (hq : q ≠ oldPathOf P) :
    (os_Remove f fs (oldPathOf P)).2 q = fs q := by
  unfold os_Remove
  cases f with
  | true => rfl
  | false =>
    simp only [Bool.false_eq_true, if_false]
    cases fs (oldPathOf P) with
    | none => rfl
    | some n => exact FS.set_other fs _ q none hq

/-- When both renames succeed the swap reports no error and the executable is
what was staged. -/
theorem fromStream_swap_success (flt : Faults) (P : Path) (fs : FS) (trace : List FS) (n : Node)
    (hP : fs P ≠ none) (hN : fs (newPathOf P) = some n)
    (h1 : flt.renameToOld = false) (h2 : flt.renameToLive = false) :
    (fromStream_swap flt P (newPathOf P) fs trace).err = none ∧
    (fromStream_swap flt P (newPathOf P) fs trace).errRecover = none ∧
    (fromStream_swap flt P (newPathOf P) fs trace).fs P = some n := by
  have hPo : P ≠ oldPathOf P := fun h => oldPathOf_ne_self P h.symm
  have hPn : P ≠ newPathOf P := fun h => newPathOf_ne_self P h.symm
  have hno := newPathOf_ne_oldPathOf P
  have hP1 : (os_Remove flt.removeStale fs (oldPathOf P)).2 P = fs P :=
    os_Remove_old_frame _ fs P P hPo
  have hN1 : (os_Remove flt.removeStale fs (oldPathOf P)).2 (newPathOf P) = some n := by
    rw [os_Remove_old_frame _ fs P _ hno]; exact hN
  obtain ⟨a, ha⟩ : ∃ a, (os_Remove flt.removeStale fs (oldPathOf P)).2 P = some a := by
    rw [hP1]; exact Option.ne_none_iff_exists'.mp hP
  unfold fromStream_swap
  simp only [os_Rename, h1, h2, Bool.false_eq_true, if_false]
  generalize (os_Remove flt.removeStale fs (oldPathOf P)).2 = fs1 at hP1 hN1 ha
  simp only [ha, hPo, hPn, if_false]
  have hN2 : ((fs1.set (oldPathOf P) (some a)).set P none) (newPathOf P) = some n := by
    rw [FS.set_other _ _ _ _ hPn.symm, FS.set_other _ _ _ _ hno]; exact hN1
  simp only [hN2, hPn.symm, if_false]
  have h3 : ((((fs1.set (oldPathOf P) (some a)).set P none).set P (some n)).set
      (newPathOf P) none) P = some n := by
    rw [FS.set_other _ _ _ _ hPn, FS.set_same]
  generalize (((fs1.set (oldPathOf P) (some a)).set P none).set P (some n)).set
      (newPathOf P) none = fs3 at h3
  have hR := os_Remove_old_frame flt.removeOld fs3 P P hPo
  rcases hrm : os_Remove flt.removeOld fs3 (oldPathOf P) with ⟨e, fs4⟩
  rw [hrm] at hR
  simp only at hR
  cases e with
  | none => exact ⟨rfl, rfl, by simp only; rw [hR]; exact h3⟩
  | some e => exact ⟨rfl, rfl, by simp only; rw [hideFile_fs, hR]; exact h3⟩

/-- When staging and both renames succeed, `install` reports no error and the
executable holds the installed bytes. -/
theorem install_success (env : Env) (flt : Faults) (u : Updater) (bin : Bytes) (w : World)
    (P : Path) (hexe : env.Executable = .ok P) (hP : w.fs P ≠ none)
    (hnew : ∀ t, w.fs (newPathOf P) ≠ some (Node.symlink t))
    (hopen : flt.openNew = false) (hcopy : flt.copy = none)
    (h1 : flt.renameToOld = false) (h2 : flt.renameToLive = false) :
    (u.install env flt bin w).1 = none ∧
    (u.install env flt bin w).2.fs P = some (Node.file bin) := by
  have hPn : P ≠ newPathOf P := fun h => newPathOf_ne_self P h.symm
  have hsw := fromStream_swap_success flt P
    (io_Copy_toFile flt.copy (w.fs.set (newPathOf P) (some (Node.file []))) (newPathOf P) bin).2
    [w.fs, w.fs.set (newPathOf P) (some (Node.file [])),
      (io_Copy_toFile flt.copy (w.fs.set (newPathOf P) (some (Node.file []))) (newPathOf P)
        bin).2]
    (Node.file bin)
    (by
      rw [hcopy]
      simp only [io_Copy_toFile]
      rw [FS.set_other _ _ _ _ hPn, FS.set_other _ _ _ _ hPn]
      exact hP)
    (by
      rw [hcopy]
      simp only [io_Copy_toFile]
      rw [FS.set_same])
    h1 h2
  rw [← fromStream_eq_swap env flt bin w.fs P hexe hnew hopen] at hsw
  obtain ⟨he, hr, hf⟩ := hsw
  unfold Updater.install
  simp only [he, hr]
  split <;> exact ⟨rfl, hf⟩

/-- C2 fails on the code.  The name `.agent.new` is taken by a symbolic link to
`.agent.old`; the candidate is that of scenario S1, the full download has the
announced hash and no call fails.  `os.OpenFile` follows the link and the new
bytes are written to `.agent.old`, which the swap then removes, replaces by the
old executable and removes again.  `Update` returns nil and invokes
`OnSuccessfulUpdate`, and the executable path is a link to nothing: it holds
neither the new bytes nor any bytes. -/
theorem C2_counterexample :
    linkedStageWorld.fs demoExe = some (Node.file bytesA) ∧
    linkedStageWorld.fs (newPathOf demoExe) = some (Node.symlink (oldPathOf demoExe)) ∧
    updaterS1.Info.Version ≠ updaterS1.CurrentVersion ∧
    (updaterS1.fetchBin demoEnv linkedStageWorld).1 = .ok bytesB ∧
    (demoEnv.sha256 bytesB).val = updaterS1.Info.ContentHash ∧
    (updaterS1.Update demoEnv noFaults linkedStageWorld).1 = none ∧
    (updaterS1.Update demoEnv noFaults linkedStageWorld).2.hooks = [Hook.OnSuccessfulUpdate] ∧
    (updaterS1.Update demoEnv noFaults linkedStageWorld).2.fs demoExe =
      some (Node.symlink (oldPathOf demoExe)) ∧
    (updaterS1.Update demoEnv noFaults linkedStageWorld).2.fs (oldPathOf demoExe) = none ∧
    os_Open false (updaterS1.Update demoEnv noFaults linkedStageWorld).2.fs demoExe =
      .error (.msg "open: no such file or directory") := by
  decide

/-- C2 as amended.  For a candidate whose version differs from the current one,
an executable path that reads as `A`, and a staged path `.{binary}.new` that is
not a symbolic link before the call: if the patch path yields `B` with the
announced SHA-256, or else the full path does, and opening the old binary,
staging and the two renames succeed, then `Update` returns nil and the
executable path holds exactly `B`, a file whose SHA-256 is
`Info.ContentHash`. -/
theorem C2_successful_swap_installs_verified_bytes (env : Env) (flt : Faults) (u : Updater)
    (w : World) (P : Path) (A B : Bytes)
    (hver : u.Info.Version ≠ u.CurrentVersion)
    (hexe : env.Executable = .ok P)
    (hA : os_Open false w.fs P = .ok A)
    (hnew : ∀ t, w.fs (newPathOf P) ≠ some (Node.symlink t))
    (hB : ((u.fetchAndApplyPatch env A w).1 = (B, none) ∧
            (env.sha256 B).val = u.Info.ContentHash) ∨
          ((∀ bin, (u.fetchAndApplyPatch env A w).1 = (bin, none) →
              (env.sha256 bin).val ≠ u.Info.ContentHash) ∧
            (u.fetchBin env w).1 = .ok B ∧ (env.sha256 B).val = u.Info.ContentHash))
    (hopenOld : flt.openOld = false) (hopenNew : flt.openNew = false)
    (hcopy : flt.copy = none)
    (hren1 : flt.renameToOld = false) (hren2 : flt.renameToLive = false) :
    (u.Update env flt w).1 = none ∧
    (u.Update env flt w).2.fs P = some (Node.file B) ∧
    (∃ c, (u.Update env flt w).2.fs P = some (Node.file c) ∧
      (env.sha256 c).val = u.Info.ContentHash) := by
  have hP : w.fs P ≠ none := exists_of_os_Open w.fs P A false hA
  have hsha : (env.sha256 B).val = u.Info.ContentHash := by
    rcases hB with h | h
    · exact h.2
    · exact h.2.2
  suffices hmain : (u.Update env flt w).1 = none ∧
      (u.Update env flt w).2.fs P = some (Node.file B) from
    ⟨hmain.1, hmain.2, B, hmain.2, hsha⟩
  unfold Updater.Update
  rw [hexe]
  simp only [hver, if_false, hopenOld, os_Open_resolved flt w.fs P A hA]
  have hf1 := fetchAndVerifyPatch_frame env u A w
  rcases hB with ⟨hp, hs⟩ | ⟨hp, hb, hs⟩
  · have hok := (fetchAndVerifyPatch_ok_iff env u A w B).2 ⟨hp, hs⟩
    rcases hq : u.fetchAndVerifyPatch env A w with ⟨r1, w1⟩
    rw [hq] at hok hf1
    simp only at hok hf1
    subst hok hf1
    simp only
    exact install_success env flt u B _ P hexe hP hnew hopenNew hcopy hren1 hren2
  · obtain ⟨e1, h1⟩ := patch_path_fails env u A w hp
    rcases hq : u.fetchAndVerifyPatch env A w with ⟨r1, w1⟩
    rw [hq] at h1 hf1
    simp only at h1 hf1
    subst h1 hf1
    simp only
    have hb2 : (u.fetchBin env
        { w with fetched := w.fetched ++ [u.Info.DownloadUrl ++ ".patch"] }).1 = .ok B := by
      rw [fetchBin_result env u _ w]; exact hb
    have hok := (fetchAndVerifyFullBin_ok_iff env u _ B).2 ⟨hb2, hs⟩
    have hf2 := fetchAndVerifyFullBin_frame env u
      { w with fetched := w.fetched ++ [u.Info.DownloadUrl ++ ".patch"] }
    rcases hq2 : u.fetchAndVerifyFullBin env
      { w with fetched := w.fetched ++ [u.Info.DownloadUrl ++ ".patch"] } with ⟨r2, w2⟩
    rw [hq2] at hok hf2
    simp only at hok hf2
    subst hok hf2
    simp only
    exact install_success env flt u B _ P hexe hP hnew hopenNew hcopy hren1 hren2

/-- The theorem of C2 at a concrete input: scenario S1 of the spec, the full download of the gzipped new binary. -/
theorem C2_witness :
    (updaterS1.Update demoEnv noFaults demoWorld).1 = none ∧
    (updaterS1.Update demoEnv noFaults demoWorld).2.fs demoExe = some (Node.file bytesB) ∧
    (∃ c, (updaterS1.Update demoEnv noFaults demoWorld).2.fs demoExe = some (Node.file c) ∧
      (demoEnv.sha256 c).val = updaterS1.Info.ContentHash) :=
  C2_successful_swap_installs_verified_bytes demoEnv noFaults updaterS1 demoWorld demoExe
    bytesA bytesB
    (by decide) rfl (by decide)
    (by
      intro t
      have hn : demoWorld.fs (newPathOf demoExe) = none := by decide
      rw [hn]
      simp)
    (Or.inr ⟨(by
        intro bin h
        have hp : (updaterS1.fetchAndApplyPatch demoEnv bytesA demoWorld).1 =
            ([], some (.msg ("bad http status from " ++ (demoUrl ++ ".patch")))) := rfl
        rw [hp] at h
        cases h),
      (by decide), rfl⟩)
    rfl rfl rfl rfl rfl

/-! ## C3: the swap is crash safe -/

/-- C3. Start the swap of `fromStream` (remove the stale `.old`, rename the
executable to `.old`, rename `.new` to the executable, then remove `.old` or,
when the second rename failed, rename `.old` back) in a state where the
executable holds `A` and the staged file holds `B`.  Whichever of the calls
fail, in the state after every call, and in the final state, the executable or
the displaced file exists and holds exactly `A` or exactly `B`. -/
theorem C3_swap_keeps_one_runnable (flt : Faults) (P : Path) (fs : FS) (A B : Bytes)
    (hP : fs P = some (Node.file A)) (hN : fs (newPathOf P) = some (Node.file B)) :
    (∀ s ∈ (fromStream_swap flt P (newPathOf P) fs [fs]).trace, oneIsRunnable P A B s) ∧
    oneIsRunnable P A B (fromStream_swap flt P (newPathOf P) fs [fs]).fs := by
  have hPo : P ≠ oldPathOf P := fun h => oldPathOf_ne_self P h.symm
  have hPn : P ≠ newPathOf P := fun h => newPathOf_ne_self P h.symm
  have hno := newPathOf_ne_oldPathOf P
  have hP1 : (os_Remove flt.removeStale fs (oldPathOf P)).2 P = some (Node.file A) := by
    rw [os_Remove_old_frame _ fs P P hPo]; exact hP
  have hN1 : (os_Remove flt.removeStale fs (oldPathOf P)).2 (newPathOf P) =
      some (Node.file B) := by
    rw [os_Remove_old_frame _ fs P _ hno]; exact hN
  have v0 : oneIsRunnable P A B fs := Or.inl hP
  unfold fromStream_swap
  simp only [os_Rename]
  generalize (os_Remove flt.removeStale fs (oldPathOf P)).2 = fs1 at hP1 hN1
  have v1 : oneIsRunnable P A B fs1 := Or.inl hP1
  simp only [hP1, hPo, hPn, hPn.symm, if_false]
  cases flt.renameToOld with
  | true =>
    simp only [if_true, List.singleton_append, List.mem_cons, forall_eq_or_imp, forall_eq,
      List.not_mem_nil, false_imp_iff, implies_true, and_true]
    exact ⟨⟨v0, v1, v1⟩, v1⟩
  | false =>
    simp only [Bool.false_eq_true, if_false]
    have hO2 : ((fs1.set (oldPathOf P) (some (Node.file A))).set P none) (oldPathOf P) =
        some (Node.file A) := by
      rw [FS.set_other _ _ _ _ hPo.symm, FS.set_same]
    have hN2 : ((fs1.set (oldPathOf P) (some (Node.file A))).set P none) (newPathOf P) =
        some (Node.file B) := by
      rw [FS.set_other _ _ _ _ hPn.symm, FS.set_other _ _ _ _ hno]; exact hN1
    generalize (fs1.set (oldPathOf P) (some (Node.file A))).set P none = fs2 at hO2 hN2
    have v2 : oneIsRunnable P A B fs2 := Or.inr (Or.inr (Or.inl hO2))
    simp only [hN2, hO2, hPo.symm]
    cases flt.renameToLive with
    | true =>
      simp only [if_true]
      cases flt.renameBack with
      | true =>
        simp only [if_true, List.singleton_append, List.mem_cons, forall_eq_or_imp, forall_eq,
          List.not_mem_nil, false_imp_iff, implies_true, and_true]
        exact ⟨⟨v0, v1, v2, v2, v2⟩, v2⟩
      | false =>
        simp only [Bool.false_eq_true, if_false, hO2, List.singleton_append, List.mem_cons,
          forall_eq_or_imp, forall_eq, List.not_mem_nil, false_imp_iff, implies_true, and_true]
        have v4 : oneIsRunnable P A B
            ((fs2.set P (some (Node.file A))).set (oldPathOf P) none) := by
          refine Or.inl ?_
          rw [FS.set_other _ _ _ _ hPo, FS.set_same]
        exact ⟨⟨v0, v1, v2, v2, v4⟩, v4⟩
    | false =>
      simp only [Bool.false_eq_true, if_false]
      have h3 : ((fs2.set P (some (Node.file B))).set (newPathOf P) none) P =
          some (Node.file B) := by
        rw [FS.set_other _ _ _ _ hPn, FS.set_same]
      generalize (fs2.set P (some (Node.file B))).set (newPathOf P) none = fs3 at h3
      have v3 : oneIsRunnable P A B fs3 := Or.inr (Or.inl h3)
      have hR := os_Remove_old_frame flt.removeOld fs3 P P hPo
      rcases hrm : os_Remove flt.removeOld fs3 (oldPathOf P) with ⟨e, fs4⟩
      rw [hrm] at hR
      simp only at hR
      have v4 : oneIsRunnable P A B fs4 := Or.inr (Or.inl (by rw [hR]; exact h3))
      cases e with
      | none =>
        simp only [List.singleton_append, List.mem_cons, forall_eq_or_imp, forall_eq,
          List.not_mem_nil, false_imp_iff, implies_true, and_true]
        exact ⟨⟨v0, v1, v2, v3, v4⟩, v4⟩
      | some e =>
        simp only [hideFile_fs, List.singleton_append, List.mem_cons, forall_eq_or_imp, forall_eq,
          List.not_mem_nil, false_imp_iff, implies_true, and_true]
        exact ⟨⟨v0, v1, v2, v3, v4, v4⟩, v4⟩

/-- The theorem of C3 at a concrete input: the second rename and the recovery are both refused, with a stale displaced file around. -/
theorem C3_witness :
    (∀ s ∈ (fromStream_swap bothRenamesRefused demoExe (newPathOf demoExe) stagedFS
      [stagedFS]).trace, oneIsRunnable demoExe bytesA bytesB s) ∧
    oneIsRunnable demoExe bytesA bytesB
      (fromStream_swap bothRenamesRefused demoExe (newPathOf demoExe) stagedFS [stagedFS]).fs :=
  C3_swap_keeps_one_runnable bothRenamesRefused demoExe stagedFS bytesA bytesB
    (by decide) (by decide)

/-! ## C4: the error of the copy into the staged file -/

/-- C4, the code at the failing input.  The copy into `.agent.new` stops after
one of the five bytes with an error.  `fromStream` returns no error and no
recovery error, and the executable has been replaced by the one byte that was
written. -/
theorem C4_copy_error_is_dropped :
    (fromStream demoEnv shortWrite bytesB demoFS).err = none ∧
    (fromStream demoEnv shortWrite bytesB demoFS).errRecover = none ∧
    (fromStream demoEnv shortWrite bytesB demoFS).fs demoExe = some (Node.file [1]) ∧
    (updaterS1.Update demoEnv shortWrite demoWorld).1 = none ∧
    (updaterS1.Update demoEnv shortWrite demoWorld).2.hooks = [Hook.OnSuccessfulUpdate] := by
  decide

/-! ## C5: a hash mismatch of the full binary in `BackgroundRun` -/

/-- C5, the code at the failing input.  Scenario S4 with `OnFailedUpdate` set:
the full binary is fetched and has the wrong hash.  No callback is invoked, and
`BackgroundRun` returns `ErrHashMismatch` to its caller instead of awaiting the
next candidate. -/
theorem C5_failed_update_calls_no_callback :
    updaterS4.OnFailedUpdate = true ∧
    (updaterS4.BackgroundRun demoEnv noFaults true
      [Event.candidate updaterS4.Info noFaults] demoWorld).1 =
        some (some GoError.ErrHashMismatch) ∧
    (updaterS4.BackgroundRun demoEnv noFaults true
      [Event.candidate updaterS4.Info noFaults] demoWorld).2.2.hooks = [] ∧
    (updaterS4.BackgroundRun demoEnv noFaults true
      [Event.candidate updaterS4.Info noFaults] demoWorld).2.2.fetched =
        [demoUrl ++ ".patch", demoUrl] := by
  decide

/-- What the loop does in general at such a candidate.  For a candidate whose
version differs from the current one, whose patch path, applied to the old
binary as opened after the pre-flight, yields no verified bytes and whose full
binary `bin` is downloaded with a SHA-256 different from `ContentHash`: the
loop of `BackgroundRun` returns a non-nil error at this candidate, whatever
events follow, and the error is `ErrHashMismatch` once the requester has been
asked. -/
theorem loop_returns_at_hash_mismatch (env : Env) (flt : Faults) (u : Updater)
    (info : UpdatePackageInfo) (rest : List Event) (w : World) (bin : Bytes)
    (hver : info.Version ≠ u.CurrentVersion)
    (hpatch : ∀ old b, openOldBinary env flt (canUpdate env flt w.fs).2 = .ok old →
      (({ u with Info := info } : Updater).fetchAndApplyPatch env old w).1 = (b, none) →
      (env.sha256 b).val ≠ info.ContentHash)
    (hbin : (({ u with Info := info } : Updater).fetchBin env w).1 = .ok bin)
    (hmis : (env.sha256 bin).val ≠ info.ContentHash) :
    ∃ e, (u.loop env (Event.candidate info flt :: rest) w).1 = some (some e) ∧
      ((u.loop env (Event.candidate info flt :: rest) w).2.2.fetched ≠ w.fetched →
        e = GoError.ErrHashMismatch) := by
  rw [Updater.loop]
  rcases hc : canUpdate env flt w.fs with ⟨ce, fs1⟩
  rw [hc] at hpatch
  simp only at hpatch
  cases ce with
  | some e => exact ⟨e, rfl, fun h => absurd rfl h⟩
  | none =>
    simp only
    have hu := update_unverified env flt { u with Info := info } { w with fs := fs1 } hver
      (by
        intro old b ho hb
        exact hpatch old b ho (by rw [fetchAndApplyPatch_result env _ old w _]; exact hb))
      (by
        intro b hb
        have hb2 : (({ u with Info := info } : Updater).fetchBin env w).1 = .ok b := by
          rw [fetchBin_result env _ w _]; exact hb
        rw [hbin] at hb2
        cases hb2
        exact hmis)
    obtain ⟨herr, _, _, hm⟩ := hu
    rcases hq : Updater.Update env flt { u with Info := info } { w with fs := fs1 }
      with ⟨ue, w2⟩
    rw [hq] at herr hm
    simp only at herr hm
    cases ue with
    | none => exact absurd rfl herr
    | some e =>
      refine ⟨e, rfl, ?_⟩
      intro hf
      have := hm bin (by rw [fetchBin_result env _ _ w]; exact hbin) hf
      cases this
      rfl

/-- The loop at scenario S4 followed by a cancellation: the cancellation is
never reached. -/
theorem loop_returns_at_hash_mismatch_S4 :
    ∃ e, (updaterS4.loop demoEnv [Event.candidate updaterS4.Info noFaults, Event.done]
        demoWorld).1 = some (some e) ∧
      ((updaterS4.loop demoEnv [Event.candidate updaterS4.Info noFaults, Event.done]
        demoWorld).2.2.fetched ≠ demoWorld.fetched → e = GoError.ErrHashMismatch) :=
  loop_returns_at_hash_mismatch demoEnv noFaults updaterS4 updaterS4.Info [Event.done]
    demoWorld bytesC
    (by decide)
    (by
      intro old b _ h
      have hp : (({ updaterS4 with Info := updaterS4.Info } : Updater).fetchAndApplyPatch
          demoEnv old demoWorld).1 =
          ([], some (.msg ("bad http status from " ++ (demoUrl ++ ".patch")))) := rfl
      rw [hp] at h
      cases h)
    (by decide)
    (by decide)

/-- Installing invokes no callback but `OnSuccessfulUpdate`, and that at most
once. -/
theorem install_hooks (env : Env) (flt : Faults) (u : Updater) (bin : Bytes) (w : World) :
    (u.install env flt bin w).2.hooks = w.hooks ∨
    (u.install env flt bin w).2.hooks = w.hooks ++ [Hook.OnSuccessfulUpdate] := by
  unfold Updater.install
  simp only
  split
  · exact Or.inl rfl
  · split
    · exact Or.inl rfl
    · split
      · exact Or.inr rfl
      · exact Or.inl rfl

/-- No run of `Update` invokes `OnFailedUpdate`, whatever the candidate, the
environment and the failures: the callbacks after the call are those before
it, with at most one `OnSuccessfulUpdate` added. -/
theorem update_never_calls_OnFailedUpdate (env : Env) (flt : Faults) (u : Updater)
    (w : World) :
    (u.Update env flt w).2.hooks = w.hooks ∨
    (u.Update env flt w).2.hooks = w.hooks ++ [Hook.OnSuccessfulUpdate] := by
  unfold Updater.Update
  cases env.Executable with
  | error e => exact Or.inl rfl
  | ok path0 =>
    simp only
    split
    · exact Or.inl rfl
    · cases os_Open flt.openOld w.fs
          (match EvalSymlinks flt w.fs path0 with
            | .ok resolvedPath => resolvedPath
            | .error _ => path0) with
      | error e => exact Or.inl rfl
      | ok old =>
        simp only
        have hf1 := fetchAndVerifyPatch_frame env u old w
        rcases hq : u.fetchAndVerifyPatch env old w with ⟨r1, w1⟩
        rw [hq] at hf1
        simp only at hf1
        subst hf1
        cases r1 with
        | ok bin => exact install_hooks env flt u bin _
        | error e1 =>
          simp only
          have hf2 := fetchAndVerifyFullBin_frame env u
            { w with fetched := w.fetched ++ [u.Info.DownloadUrl ++ ".patch"] }
          rcases hq2 : u.fetchAndVerifyFullBin env
            { w with fetched := w.fetched ++ [u.Info.DownloadUrl ++ ".patch"] } with ⟨r2, w2⟩
          rw [hq2] at hf2
          simp only at hf2
          subst hf2
          cases r2 with
          | ok bin => exact install_hooks env flt u bin _
          | error e2 => exact Or.inl rfl

/-! ## C6: the version `dev` -/

/-- C6, the code at the failing input.  With `CurrentVersion = "dev"` and the
candidate of scenario S1, `Update` asks the requester for both URLs, replaces
the executable by the new bytes and invokes `OnSuccessfulUpdate`: `dev` is
treated like any other version string. -/
theorem C6_dev_version_updates :
    updaterDev.CurrentVersion = "dev" ∧
    (updaterDev.Update demoEnv noFaults demoWorld).1 = none ∧
    (updaterDev.Update demoEnv noFaults demoWorld).2.fetched = [demoUrl ++ ".patch", demoUrl] ∧
    demoWorld.fs demoExe = some (Node.file bytesA) ∧
    (updaterDev.Update demoEnv noFaults demoWorld).2.fs demoExe = some (Node.file bytesB) ∧
    (updaterDev.Update demoEnv noFaults demoWorld).2.hooks = [Hook.OnSuccessfulUpdate] := by
  decide

/-! ## C7: a candidate with the current version -/

/-- C7 fails on the code.  The candidate has the current version, and a staged
file `.agent.new` exists.  After the candidate is handled the staged file is
gone: the pre-flight `canUpdate` has emptied and removed it. -/
theorem C7_counterexample :
    updaterSame.Info.Version = updaterSame.CurrentVersion ∧
    staleWorld.fs (newPathOf demoExe) = some (Node.file [5, 5, 5]) ∧
    (updaterSame.loop demoEnv [Event.candidate updaterSame.Info noFaults]
      staleWorld).2.2.fs (newPathOf demoExe) = none := by
  decide

/-- What `canUpdate` does when the staged path is not a link and the open
succeeds: it returns nil and changes the staged path only, which it removes. -/
theorem canUpdate_frame (env : Env) (flt : Faults) (fs : FS) (P : Path)
    (hexe : env.Executable = .ok P)
    (hnew : ∀ t, fs (newPathOf P) ≠ some (Node.symlink t))
    (hopen : flt.preflightOpen = false) :
    (canUpdate env flt fs).1 = none ∧
    (∀ q, q ≠ newPathOf P → (canUpdate env flt fs).2 q = fs q) ∧
    (flt.preflightRemove = false → (canUpdate env flt fs).2 (newPathOf P) = none) := by
  unfold canUpdate
  rw [hexe]
  simp only [os_OpenFile, hopen, Bool.false_eq_true, if_false,
    followLinks_not_link fs openLinkLimit (newPathOf P) hnew, os_Remove]
  refine ⟨trivial, ?_, ?_⟩
  · intro q hq
    cases flt.preflightRemove with
    | true => simp only [if_true]; exact FS.set_other _ _ _ _ hq
    | false =>
      simp only [Bool.false_eq_true, if_false, FS.set_same]
      rw [FS.set_other _ _ _ _ hq, FS.set_other _ _ _ _ hq]
  · intro hr
    simp only [hr, Bool.false_eq_true, if_false, FS.set_same]

/-- `Update` does nothing for a candidate with the current version. -/
theorem update_same_version (env : Env) (flt : Faults) (u : Updater) (w : World) (P : Path)
    (hexe : env.Executable = .ok P) (hver : u.Info.Version = u.CurrentVersion) :
    u.Update env flt w = (none, w) := by
  unfold Updater.Update
  rw [hexe]
  simp only [hver, if_true]

/-- C7 as amended.  For a candidate with the current version, an executable
path `P`, a staged path that is not a symbolic link and a pre-flight open that
succeeds: handling the candidate changes no path other than `.{binary}.new`,
which the pre-flight empties and removes; no URL is fetched, no callback is
invoked, and the loop goes on with the events that follow. -/
theorem C7_same_version_only_preflight (env : Env) (flt : Faults) (u : Updater)
    (info : UpdatePackageInfo) (rest : List Event) (w : World) (P : Path)
    (hver : info.Version = u.CurrentVersion)
    (hexe : env.Executable = .ok P)
    (hnew : ∀ t, w.fs (newPathOf P) ≠ some (Node.symlink t))
    (hopen : flt.preflightOpen = false) :
    ∃ fs1 : FS,
      u.loop env (Event.candidate info flt :: rest) w =
        Updater.loop env { u with Info := info } rest { w with fs := fs1 } ∧
      (∀ q, q ≠ newPathOf P → fs1 q = w.fs q) ∧
      (flt.preflightRemove = false → fs1 (newPathOf P) = none) := by
  obtain ⟨hc, hframe, hrem⟩ := canUpdate_frame env flt w.fs P hexe hnew hopen
  refine ⟨(canUpdate env flt w.fs).2, ?_, hframe, hrem⟩
  rw [Updater.loop]
  rcases hq : canUpdate env flt w.fs with ⟨ce, fs1⟩
  rw [hq] at hc
  simp only at hc
  subst hc
  simp only
  rw [update_same_version env flt { u with Info := info } { w with fs := fs1 } P hexe hver]

/-- The theorem of C7 at a concrete input: a candidate with the current version while a stale staged file exists. -/
theorem C7_witness :
    ∃ fs1 : FS,
      updaterSame.loop demoEnv [Event.candidate updaterSame.Info noFaults, Event.done]
          staleWorld =
        Updater.loop demoEnv { updaterSame with Info := updaterSame.Info } [Event.done]
          { staleWorld with fs := fs1 } ∧
      (∀ q, q ≠ newPathOf demoExe → fs1 q = staleWorld.fs q) ∧
      (noFaults.preflightRemove = false → fs1 (newPathOf demoExe) = none) :=
  C7_same_version_only_preflight demoEnv noFaults updaterSame updaterSame.Info [Event.done]
    staleWorld demoExe (by decide) rfl
    (by
      intro t
      have hn : staleWorld.fs (newPathOf demoExe) = some (Node.file [5, 5, 5]) := by decide
      rw [hn]
      simp)
    rfl

/-! ## C8: which URLs `Update` requests -/

/-- Installing fetches nothing. -/
theorem install_fetched (env : Env) (flt : Faults) (u : Updater) (bin : Bytes) (w : World) :
    (u.install env flt bin w).2.fetched = w.fetched := by
  unfold Updater.install
  simp only
  split
  · rfl
  · split
    · rfl
    · split <;> rfl

/-- The URLs that `Update` requests once the old binary is open: the patch URL,
and then the download URL unless the patch path returned bytes. -/
theorem update_fetched (env : Env) (flt : Faults) (u : Updater) (w : World) (P : Path)
    (A : Bytes)
    (hver : u.Info.Version ≠ u.CurrentVersion)
    (hexe : env.Executable = .ok P)
    (hA : os_Open false w.fs P = .ok A)
    (hopen : flt.openOld = false) :
    (u.Update env flt w).2.fetched =
      w.fetched ++ (u.Info.DownloadUrl ++ ".patch") ::
        (match (u.fetchAndVerifyPatch env A w).1 with
          | .ok _ => []
          | .error _ => [u.Info.DownloadUrl]) := by
  unfold Updater.Update
  rw [hexe]
  simp only [hver, if_false, hopen, os_Open_resolved flt w.fs P A hA]
  have hf1 := fetchAndVerifyPatch_frame env u A w
  rcases hq : u.fetchAndVerifyPatch env A w with ⟨r1, w1⟩
  rw [hq] at hf1
  simp only at hf1
  subst hf1
  cases r1 with
  | ok bin => simp only [install_fetched]
  | error e =>
    simp only
    have hf2 := fetchAndVerifyFullBin_frame env u
      { w with fetched := w.fetched ++ [u.Info.DownloadUrl ++ ".patch"] }
    rcases hq2 : u.fetchAndVerifyFullBin env
      { w with fetched := w.fetched ++ [u.Info.DownloadUrl ++ ".patch"] } with ⟨r2, w2⟩
    rw [hq2] at hf2
    simp only at hf2
    subst hf2
    cases r2 with
    | ok bin => simp only [install_fetched, List.append_assoc, List.singleton_append]
    | error e2 => simp only [List.append_assoc, List.singleton_append]

/-- C8 fails on the code.  In scenario S1 the candidate has `IsPatch = false`,
and the first URL that `Update` requests is the patch URL; the download URL is
the second. -/
theorem C8_counterexample :
    updaterS1.Info.IsPatch = false ∧
    updaterS1.Info.Version ≠ updaterS1.CurrentVersion ∧
    (updaterS1.Update demoEnv noFaults demoWorld).2.fetched =
      [updaterS1.Info.DownloadUrl ++ ".patch", updaterS1.Info.DownloadUrl] := by
  decide

/-- C8 as amended.  For a candidate whose version differs from the current one
and an old binary that can be opened, `Update` requests `DownloadUrl + ".patch"`
first, and `DownloadUrl` second exactly when the patch path returned no verified
bytes; `Info.IsPatch` has no influence on anything `Update` does. -/
theorem C8_patch_url_first_whatever_IsPatch (env : Env) (flt : Faults) (u : Updater)
    (w : World) (P : Path) (A : Bytes)
    (hver : u.Info.Version ≠ u.CurrentVersion)
    (hexe : env.Executable = .ok P)
    (hA : os_Open false w.fs P = .ok A)
    (hopen : flt.openOld = false) :
    (u.Update env flt w).2.fetched =
      w.fetched ++ (u.Info.DownloadUrl ++ ".patch") ::
        (match (u.fetchAndVerifyPatch env A w).1 with
          | .ok _ => []
          | .error _ => [u.Info.DownloadUrl]) ∧
    (∀ b : Bool,
      Updater.Update env flt { u with Info := { u.Info with IsPatch := b } } w =
        u.Update env flt w) :=
  ⟨update_fetched env flt u w P A hver hexe hA hopen, fun _ => rfl⟩

/-- The theorem of C8 at a concrete input: scenario S1, whose candidate has no delta. -/
theorem C8_witness :
    (updaterS1.Update demoEnv noFaults demoWorld).2.fetched =
      demoWorld.fetched ++ (updaterS1.Info.DownloadUrl ++ ".patch") ::
        (match (updaterS1.fetchAndVerifyPatch demoEnv bytesA demoWorld).1 with
          | .ok _ => []
          | .error _ => [updaterS1.Info.DownloadUrl]) ∧
    (∀ b : Bool,
      Updater.Update demoEnv noFaults
          { updaterS1 with Info := { updaterS1.Info with IsPatch := b } } demoWorld =
        updaterS1.Update demoEnv noFaults demoWorld) :=
  C8_patch_url_first_whatever_IsPatch demoEnv noFaults updaterS1 demoWorld demoExe bytesA
    (by decide) rfl (by decide) rfl

/-! ## C9: a content hash that is not 32 bytes long -/

/-- No digest equals a hash of another length. -/
theorem sha_ne_of_length (env : Env) (bin sha : Bytes) (hlen : sha.length ≠ 32) :
    (env.sha256 bin).val ≠ sha := by
  intro h
  exact hlen (by rw [← h]; exact (env.sha256 bin).property)

/-- C9 fails on the code.  The candidate of scenario S1 with an empty content
hash: `Update` has called `Fetch` twice, for the patch URL and for the download
URL, before it rejects the candidate. -/
theorem C9_counterexample :
    updaterShortHash.Info.ContentHash.length ≠ 32 ∧
    updaterShortHash.Info.Version ≠ updaterShortHash.CurrentVersion ∧
    (updaterShortHash.Update demoEnv noFaults demoWorld).1 = some GoError.ErrHashMismatch ∧
    (updaterShortHash.Update demoEnv noFaults demoWorld).2.fetched =
      [demoUrl ++ ".patch", demoUrl] := by
  decide

/-- C9 as amended.  For a candidate whose content hash is not 32 bytes long and
whose version differs from the current one, `Update` rejects the candidate: it
returns a non-nil error, changes no file and invokes no callback.  It does so
after the network: when the old binary can be opened it has called `Fetch` for
the patch URL and then for the download URL. -/
theorem C9_wrong_length_rejected_after_fetch (env : Env) (flt : Faults) (u : Updater)
    (w : World)
    (hlen : u.Info.ContentHash.length ≠ 32)
    (hver : u.Info.Version ≠ u.CurrentVersion) :
    (u.Update env flt w).1 ≠ none ∧
    (u.Update env flt w).2.fs = w.fs ∧
    (u.Update env flt w).2.hooks = w.hooks ∧
    (∀ P A, env.Executable = .ok P → os_Open false w.fs P = .ok A → flt.openOld = false →
      (u.Update env flt w).2.fetched =
        w.fetched ++ [u.Info.DownloadUrl ++ ".patch", u.Info.DownloadUrl]) := by
  obtain ⟨herr, hfs, hhooks, _⟩ := update_unverified env flt u w hver
    (fun _ bin _ _ => sha_ne_of_length env bin _ hlen)
    (fun bin _ => sha_ne_of_length env bin _ hlen)
  refine ⟨herr, hfs, hhooks, ?_⟩
  intro P A hexe hA hopen
  rw [update_fetched env flt u w P A hver hexe hA hopen]
  obtain ⟨e, he⟩ := patch_path_fails env u A w
    (fun bin _ => sha_ne_of_length env bin _ hlen)
  rw [he]

/-- The theorem of C9 at a concrete input: the candidate of scenario S1 with an empty content hash. -/
theorem C9_witness :
    (updaterShortHash.Update demoEnv noFaults demoWorld).1 ≠ none ∧
    (updaterShortHash.Update demoEnv noFaults demoWorld).2.fs = demoWorld.fs ∧
    (updaterShortHash.Update demoEnv noFaults demoWorld).2.hooks = demoWorld.hooks ∧
    (∀ P A, demoEnv.Executable = .ok P → os_Open false demoWorld.fs P = .ok A →
      noFaults.openOld = false →
      (updaterShortHash.Update demoEnv noFaults demoWorld).2.fetched =
        demoWorld.fetched ++
          [updaterShortHash.Info.DownloadUrl ++ ".patch", updaterShortHash.Info.DownloadUrl]) :=
  C9_wrong_length_rejected_after_fetch demoEnv noFaults updaterShortHash demoWorld
    (by decide) (by decide)

/-! ## C10: an executable path that is a symbolic link -/

/-- C10, the code at the failing input.  The executable path `/opt/agent/agent`
is a symbolic link to `/opt/agent/releases/agent-1.0`, which holds the old
bytes.  `Update` reads the old binary through the link, but `fromStream` works
on the path of the link: the staged file is `.agent.new` next to the link and
never `.agent-1.0.new` next to the real file, and after the update the link has
been replaced by a regular file with the new bytes while the real file still
holds the old ones. -/
theorem C10_swap_acts_on_the_link :
    linkWorld.fs demoExe = some (Node.symlink realExe) ∧
    linkWorld.fs realExe = some (Node.file bytesA) ∧
    (updaterS1.Update demoEnv noFaults linkWorld).1 = none ∧
    (updaterS1.Update demoEnv noFaults linkWorld).2.fs demoExe = some (Node.file bytesB) ∧
    (updaterS1.Update demoEnv noFaults linkWorld).2.fs realExe = some (Node.file bytesA) ∧
    (fromStream demoEnv noFaults bytesB linkWorld.fs).trace.map (fun s => s (newPathOf demoExe)) =
      [none, some (Node.file []), some (Node.file bytesB), some (Node.file bytesB),
        some (Node.file bytesB), none, none] ∧
    (fromStream demoEnv noFaults bytesB linkWorld.fs).trace.map (fun s => s (newPathOf realExe)) =
      [none, none, none, none, none, none, none] ∧
    (fromStream demoEnv noFaults bytesB linkWorld.fs).trace.map (fun s => s (oldPathOf demoExe)) =
      [none, none, none, none, some (Node.symlink realExe), some (Node.symlink realExe), none] := by
  decide

/-! ## C11: the next update time that a trigger writes -/

/-- A 64 bit result that is in range is the exact result. -/
theorem wrapInt64_of_range (x : Int) (hlo : -9223372036854775808 ≤ x)
    (hhi : x < 9223372036854775808) : wrapInt64 x = x := by
  unfold wrapInt64
  omega

/-- What `writeTime` leaves in the file is at most one second before the time
it was given, and not after it. -/
theorem formatRFC3339_bounds (t : Int) :
    ∃ s, formatRFC3339 t = CkFile.stamp s ∧ parseRFC3339 s ≤ t ∧
      t < parseRFC3339 s + time_Second := by
  refine ⟨t / 1000000000, rfl, ?_, ?_⟩
  · simp only [parseRFC3339, time_Second]
    omega
  · simp only [parseRFC3339, time_Second]
    omega

/-- A check of the remote trigger that probes, gets an info, has its candidate
received if it sends one, and writes: it returns, and the file is the time it
computed, as `writeTime` formats it. -/
theorem remote_check_cktime (env : TriggerEnv) (f : RemoteFileCheckTrigger) (st : TriggerState)
    (info : Info)
    (hnext : Time.Before (f.NextUpdate env st.cktime) env.nowCheck = true)
    (hinfo : f.getInfo env = .ok info)
    (hrecv : info.Version = "" ∨ env.received = true)
    (hwrite : env.writeFault = false) :
    ∃ st1, f.check env st = some st1 ∧
      st1.cktime =
        formatRFC3339 (Time.Add env.nowWrite (wrapInt64 (f.CheckTimeDuration +
          wrapInt64 ((rand_Intn env.rand 3 : Int) * time_Second)))) := by
  unfold RemoteFileCheckTrigger.check
  rw [hnext, hinfo]
  simp only [if_true, RemoteFileCheckTrigger.SetUpdateTime, writeTime, hwrite,
    Bool.false_eq_true, if_false]
  by_cases hv : info.Version = ""
  · simp [hv]
  · have hr : env.received = true := by
      rcases hrecv with h | h
      · exact absurd h hv
      · exact h
    simp [hv, hr]

/-- A check of the local trigger that probes, finds an entry, has its candidate
received if it sends one, and writes: it returns, and the file is the time it
computed, as `writeTime` formats it. -/
theorem local_check_cktime (env : TriggerEnv) (f : LocalFileCheckTrigger) (st : TriggerState)
    (info : UpdatePackageInfo)
    (hnext : Time.Before (f.NextUpdate env st.cktime) env.nowCheck = true)
    (hinfo : f.getInfo env = .ok (some info))
    (hrecv : info.Version = "" ∨ env.received = true)
    (hwrite : env.writeFault = false) :
    ∃ st1, f.check env st = some st1 ∧
      st1.cktime =
        formatRFC3339 (Time.Add env.nowWrite (wrapInt64 (f.CheckTimeDuration +
          wrapInt64 ((rand_Intn env.rand 3600 : Int) * time_Second)))) := by
  unfold LocalFileCheckTrigger.check
  rw [hnext, hinfo]
  simp only [if_true, LocalFileCheckTrigger.SetUpdateTime, writeTime, hwrite,
    Bool.false_eq_true, if_false]
  by_cases hv : info.Version = ""
  · simp [hv]
  · have hr : env.received = true := by
      rcases hrecv with h | h
      · exact absurd h hv
      · exact h
    simp [hv, hr]

/-- A check that has a candidate to send and no receiver never returns, for
either trigger: the send comes before `SetUpdateTime`, so nothing is written. -/
theorem check_blocks_without_receiver (env : TriggerEnv) (st : TriggerState)
    (hrecv : env.received = false) :
    (∀ (f : RemoteFileCheckTrigger) (info : Info),
      Time.Before (f.NextUpdate env st.cktime) env.nowCheck = true →
      f.getInfo env = .ok info → info.Version ≠ "" → f.check env st = none) ∧
    (∀ (f : LocalFileCheckTrigger) (info : UpdatePackageInfo),
      Time.Before (f.NextUpdate env st.cktime) env.nowCheck = true →
      f.getInfo env = .ok (some info) → info.Version ≠ "" → f.check env st = none) := by
  constructor
  · intro f info hnext hinfo hv
    unfold RemoteFileCheckTrigger.check
    rw [hnext, hinfo]
    simp [hv, hrecv]
  · intro f info hnext hinfo hv
    unfold LocalFileCheckTrigger.check
    rw [hnext, hinfo]
    simp [hv, hrecv]

/-- The time handed to `writeTime` lies in the window of the jitter. -/
theorem jitter_window (now d : Int) (rand n : Nat) (hn : 0 < n)
    (hn2 : (n : Int) ≤ 3600)
    (hlo : -9223372036854775808 ≤ d)
    (hhi : d + (n : Int) * time_Second < 9223372036854775808) :
    now + d ≤ Time.Add now (wrapInt64 (d + wrapInt64 ((rand_Intn rand n : Int) * time_Second))) ∧
    Time.Add now (wrapInt64 (d + wrapInt64 ((rand_Intn rand n : Int) * time_Second))) <
      now + d + (n : Int) * time_Second := by
  have hr : rand_Intn rand n < n := Nat.mod_lt _ hn
  have hr0 : (0 : Int) ≤ (rand_Intn rand n : Int) := Int.ofNat_nonneg _
  have hr1 : (rand_Intn rand n : Int) < (n : Int) := by exact_mod_cast hr
  simp only [time_Second] at hhi ⊢
  generalize (rand_Intn rand n : Int) = r at hr0 hr1
  generalize (n : Int) = m at hn2 hhi hr1
  have h1 : wrapInt64 (r * 1000000000) = r * 1000000000 :=
    wrapInt64_of_range _ (by omega) (by omega)
  rw [h1]
  have h2 : wrapInt64 (d + r * 1000000000) = d + r * 1000000000 :=
    wrapInt64_of_range _ (by omega) (by omega)
  rw [h2]
  simp only [Time.Add]
  constructor <;> omega

/-- C11 fails on the code, in three ways.  The local trigger whose manifest
has no entry for its command probes (there is no `cktime` file, the manifest is
read without error) and returns with nothing written: there is still no
`cktime` file.  The remote trigger that finds a candidate while nobody receives
from its channel never returns from the send and writes nothing.  And the
remote trigger, run half a second past a whole second with a jitter of zero,
writes a time that is earlier than `now + CheckTimeDuration`, because the file
holds whole seconds. -/
theorem C11_counterexample :
    Time.Before (localOther.NextUpdate (demoTriggerEnv 0) freshTrigger.cktime)
      (demoTriggerEnv 0).nowCheck = true ∧
    localOther.getInfo (demoTriggerEnv 0) = .ok none ∧
    localOther.check (demoTriggerEnv 0) freshTrigger = some freshTrigger ∧
    freshTrigger.cktime = CkFile.absent ∧
    Time.Before (demoRemote.NextUpdate noReceiverEnv freshTrigger.cktime)
      noReceiverEnv.nowCheck = true ∧
    demoRemote.getInfo noReceiverEnv = .ok demoManifest ∧
    demoRemote.check noReceiverEnv freshTrigger = none ∧
    Time.Before (demoRemote.NextUpdate (demoTriggerEnv 0) freshTrigger.cktime)
      (demoTriggerEnv 0).nowCheck = true ∧
    demoRemote.getInfo (demoTriggerEnv 0) = .ok demoManifest ∧
    (demoRemote.check (demoTriggerEnv 0) freshTrigger).map TriggerState.cktime =
      some (CkFile.stamp 63900000003) ∧
    parseRFC3339 63900000003 < demoNow + demoRemote.CheckTimeDuration := by
  decide

/-- C11 as amended.  For the remote trigger, and for the local trigger when the
manifest has an entry for the command: whenever `check` finds the persisted
next update time before the clock, `getInfo` returns without error, the
candidate is received from the channel when one is sent (the version is not
empty) and the write succeeds, `check` returns, and the time `t` handed to
`writeTime` satisfies `now + CheckTimeDuration ≤ t < now + CheckTimeDuration + J`
seconds, where `now` is the clock as `SetUpdateTime` reads it and `J` is 3 for
the remote and 3600 for the local trigger; the `cktime` file holds `t` cut to
the whole second.  `CheckTimeDuration` is a 64 bit duration to which `J`
seconds can be added without overflow. -/
theorem C11_next_update_time_window (env : TriggerEnv) (st : TriggerState) :
    (∀ (f : RemoteFileCheckTrigger) (info : Info),
      Time.Before (f.NextUpdate env st.cktime) env.nowCheck = true →
      f.getInfo env = .ok info →
      (info.Version = "" ∨ env.received = true) →
      env.writeFault = false →
      -9223372036854775808 ≤ f.CheckTimeDuration →
      f.CheckTimeDuration + remoteJitter * time_Second < 9223372036854775808 →
      ∃ (t s : Int) (st1 : TriggerState),
        env.nowWrite + f.CheckTimeDuration ≤ t ∧
        t < env.nowWrite + f.CheckTimeDuration + remoteJitter * time_Second ∧
        f.check env st = some st1 ∧
        st1.cktime = CkFile.stamp s ∧
        parseRFC3339 s ≤ t ∧ t < parseRFC3339 s + time_Second) ∧
    (∀ (f : LocalFileCheckTrigger) (info : UpdatePackageInfo),
      Time.Before (f.NextUpdate env st.cktime) env.nowCheck = true →
      f.getInfo env = .ok (some info) →
      (info.Version = "" ∨ env.received = true) →
      env.writeFault = false →
      -9223372036854775808 ≤ f.CheckTimeDuration →
      f.CheckTimeDuration + localJitter * time_Second < 9223372036854775808 →
      ∃ (t s : Int) (st1 : TriggerState),
        env.nowWrite + f.CheckTimeDuration ≤ t ∧
        t < env.nowWrite + f.CheckTimeDuration + localJitter * time_Second ∧
        f.check env st = some st1 ∧
        st1.cktime = CkFile.stamp s ∧
        parseRFC3339 s ≤ t ∧ t < parseRFC3339 s + time_Second) := by
  constructor
  · intro f info hnext hinfo hrecv hwrite hlo hhi
    obtain ⟨s, hs, h1, h2⟩ := formatRFC3339_bounds
      (Time.Add env.nowWrite (wrapInt64 (f.CheckTimeDuration +
        wrapInt64 ((rand_Intn env.rand 3 : Int) * time_Second))))
    obtain ⟨hw1, hw2⟩ := jitter_window env.nowWrite f.CheckTimeDuration env.rand 3
      (by decide) (by decide) hlo hhi
    obtain ⟨st1, hret, hck⟩ := remote_check_cktime env f st info hnext hinfo hrecv hwrite
    exact ⟨_, s, st1, hw1, hw2, hret, hck.trans hs, h1, h2⟩
  · intro f info hnext hinfo hrecv hwrite hlo hhi
    obtain ⟨s, hs, h1, h2⟩ := formatRFC3339_bounds
      (Time.Add env.nowWrite (wrapInt64 (f.CheckTimeDuration +
        wrapInt64 ((rand_Intn env.rand 3600 : Int) * time_Second))))
    obtain ⟨hw1, hw2⟩ := jitter_window env.nowWrite f.CheckTimeDuration env.rand 3600
      (by decide) (by decide) hlo hhi
    obtain ⟨st1, hret, hck⟩ := local_check_cktime env f st info hnext hinfo hrecv hwrite
    exact ⟨_, s, st1, hw1, hw2, hret, hck.trans hs, h1, h2⟩

/-- The theorem of C11 at a concrete input: both triggers of the examples, run
for the first time half a second past a whole second, with the engine
receiving the candidate. -/
theorem C11_witness :
    (∃ (t s : Int) (st1 : TriggerState),
      (demoTriggerEnv 2).nowWrite + demoRemote.CheckTimeDuration ≤ t ∧
      t < (demoTriggerEnv 2).nowWrite + demoRemote.CheckTimeDuration +
        remoteJitter * time_Second ∧
      demoRemote.check (demoTriggerEnv 2) freshTrigger = some st1 ∧
      st1.cktime = CkFile.stamp s ∧
      parseRFC3339 s ≤ t ∧ t < parseRFC3339 s + time_Second) ∧
    (∃ (t s : Int) (st1 : TriggerState),
      (demoTriggerEnv 2).nowWrite + demoLocal.CheckTimeDuration ≤ t ∧
      t < (demoTriggerEnv 2).nowWrite + demoLocal.CheckTimeDuration +
        localJitter * time_Second ∧
      demoLocal.check (demoTriggerEnv 2) freshTrigger = some st1 ∧
      st1.cktime = CkFile.stamp s ∧
      parseRFC3339 s ≤ t ∧ t < parseRFC3339 s + time_Second) :=
  ⟨(C11_next_update_time_window (demoTriggerEnv 2) freshTrigger).1 demoRemote demoManifest
      (by decide) (by decide) (Or.inr rfl) rfl (by decide) (by decide),
    (C11_next_update_time_window (demoTriggerEnv 2) freshTrigger).2 demoLocal demoEntry
      (by decide) (by decide) (Or.inr rfl) rfl (by decide) (by decide)⟩

/-! ## C12: the URL of the delta -/

/-- The URL of the full binary in a candidate of the remote trigger is the path
under which the publisher writes the gzipped binary. -/
theorem download_url_is_published (binURL cmdName version plat : String) :
    binURL ++ "/" ++ cmdName ++ "/" ++ version ++ "/" ++ plat ++ ".gz" =
      createUpdate_gzPath binURL cmdName version plat := rfl

/-- The URL of the delta that `fetchAndApplyPatch` builds from a candidate of the
remote trigger is never the path under which the publisher writes the delta:
it is three characters longer. -/
theorem patch_url_is_not_published (binURL cmdName version plat : String) :
    (binURL ++ "/" ++ cmdName ++ "/" ++ version ++ "/" ++ plat ++ ".gz") ++ ".patch" ≠
      createUpdate_patchPath binURL cmdName version plat := by
  intro h
  have hl := congrArg String.length h
  have h1 : "/".length = 1 := rfl
  have h2 : ".gz".length = 3 := rfl
  have h3 : ".patch".length = 6 := rfl
  simp only [createUpdate_patchPath, String.length_append, h1, h2, h3] at hl
  omega

/-- C12, the code at the failing input.  The remote trigger of the examples
emits the candidate for version `v2`; for that candidate `Update` asks the
requester for `.../agent/v2/linux-amd64.gz.patch`, while the publisher writes
the delta to `.../agent/v2/linux-amd64.patch`.  Against a server that holds
what the publisher wrote for a delta, both requests fail, `Update` returns an
error and the executable keeps the old bytes. -/
theorem C12_patch_url_has_gz_suffix :
    (demoRemote.check (demoTriggerEnv 0) freshTrigger).map TriggerState.sent =
      some [demoInfo true (sha256.digest bytesB).val] ∧
    ((demoUpdater "v1" publishedDelta (demoInfo true (sha256.digest bytesB).val)).Update
      demoEnv noFaults demoWorld).2.fetched =
      ["http://localhost:8080/agent/v2/linux-amd64.gz.patch",
       "http://localhost:8080/agent/v2/linux-amd64.gz"] ∧
    createUpdate_patchPath demoRemote.BinURL demoRemote.CmdName "v2" (demoTriggerEnv 0).plat =
      "http://localhost:8080/agent/v2/linux-amd64.patch" ∧
    ((demoUpdater "v1" publishedDelta (demoInfo true (sha256.digest bytesB).val)).Update
      demoEnv noFaults demoWorld).1 =
      some (.msg "bad http status from http://localhost:8080/agent/v2/linux-amd64.gz") ∧
    ((demoUpdater "v1" publishedDelta (demoInfo true (sha256.digest bytesB).val)).Update
      demoEnv noFaults demoWorld).2.fs demoExe = some (Node.file bytesA) := by
  decide

/-! ## C13: the headers of `HTTPRequester` -/

/-- After `SetHeader` with a map that has entries, the stored map holds the
entry visited last and nothing else. -/
theorem SetHeader_keeps_last (r : HTTPRequester) (header : HeaderMap) (kv : String × String) :
    (r.SetHeader (header ++ [kv])).Hearder = some [kv] := by
  unfold HTTPRequester.SetHeader
  rw [List.foldl_append]
  simp [HeaderMap.assign]

/-- C13, the code at the failing input.  `SetHeader` with a map of two entries
stores one entry, the one that `range` visits last, whichever order it visits
them in; the request of `Fetch` carries that header only, and the other entry
of the map is missing from it. -/
theorem C13_only_one_header_is_kept :
    (HTTPRequester.SetHeader ⟨none⟩ twoHeaders).Hearder = some [("X-Agent", "1")] ∧
    (HTTPRequester.SetHeader ⟨none⟩ twoHeadersSwapped).Hearder =
      some [("Authorization", "Bearer t")] ∧
    (HTTPRequester.SetHeader ⟨none⟩ twoHeaders).requestHeader = [("X-Agent", "1")] ∧
    ("Authorization", "Bearer t") ∈ twoHeaders ∧
    ("Authorization", "Bearer t") ∉ (HTTPRequester.SetHeader ⟨none⟩ twoHeaders).requestHeader := by
  decide

end OpampPackageMgm
